import Mathlib

/-!
Shallow embedding of the data-contract engine core
(`app/core/change_detector.py`, `app/core/version_controller.py`,
`app/core/schema_validator.py`, `app/core/yaml_parser.py`,
`app/models/schemas.py`).

Modelling conventions:
* Python numbers (`int`/`float`) are modelled as `Int`; no claim under
  verification depends on non-integer float values.
* A Python dict is modelled as an association list with unique keys
  (YAML mappings and `dict` literals never carry duplicate keys);
  lookups take the first matching entry.
* A function that can raise an uncaught `TypeError` in the source
  (mixed “int vs str” comparisons) returns `Option`/`Except`, with
  `none`/`.error` modelling the raised exception.
* Regex compilation and regex matching (`re.compile`, `re.match`) are
  opaque to the embedding; they are passed in as boolean oracles so
  statements hold for every regex semantics.
-/

/-- Scalar constants as they appear in `min`/`max` bounds and `enum`
elements (`Union[int, float, str]` plus `bool`; numbers as `Int`). -/
inductive Scalar where
  | sInt (n : Int)
  | sStr (s : String)
  | sBool (b : Bool)
deriving DecidableEq, Repr

/-- Numeric view: Python treats `bool` as a subtype of `int`. -/
def Scalar.numVal : Scalar → Option Int
  | .sInt n => some n
  | .sBool b => some (if b then 1 else 0)
  | .sStr _ => none

/-- Python `a > b` on scalars; `none` models the `TypeError` raised by a
mixed number/string comparison. -/
def scalarGt : Scalar → Scalar → Option Bool
  | .sStr a, .sStr b => some (decide (b < a))
  | a, b =>
    match a.numVal, b.numVal with
    | some x, some y => some (decide (y < x))
    | _, _ => none

/-- Python `a < b` on scalars. -/
def scalarLt (a b : Scalar) : Option Bool := scalarGt b a

/-- Python `a == b` on scalars (`1 == True` holds, numbers never equal
strings). -/
def scalarEq : Scalar → Scalar → Bool
  | .sStr a, .sStr b => a = b
  | a, b =>
    match a.numVal, b.numVal with
    | some x, some y => x = y
    | _, _ => false

/-- Rendering used when a scalar is interpolated into a message. -/
def Scalar.render : Scalar → String
  | .sInt n => toString n
  | .sStr s => s
  | .sBool b => if b then "True" else "False"

/-- A dynamically-typed Python value: a data record field, or a value
loaded from a YAML document by `yaml.safe_load`. -/
inductive PyVal where
  | vNull
  | vStr (s : String)
  | vInt (n : Int)
  | vFloat (n : Int)
  | vBool (b : Bool)
  | vList (l : List PyVal)
  | vDict (d : List (String × PyVal))

/-- First-match association-list lookup (`d[k]` / `d.get(k)`). -/
def pyLookup : List (String × PyVal) → String → Option PyVal
  | [], _ => none
  | (k, v) :: rest, key => if k = key then some v else pyLookup rest key

/-- `k in d` for a dict. -/
def pyHasKey (d : List (String × PyVal)) (key : String) : Bool :=
  (pyLookup d key).isSome

/-- The non-recursive attributes of `FieldDefinition`
(`app/models/schemas.py`). -/
structure FieldAttrs where
  type : String
  required : Bool
  pattern : Option String
  format : Option String
  min : Option Scalar
  max : Option Scalar
  min_length : Option Int
  max_length : Option Int
  description : Option String
  enum : Option (List Scalar)
deriving DecidableEq, Repr

mutual

/-- `FieldDefinition`: one schema field, with optional nested `items`
(array element definition) and `properties` (object property map). -/
inductive FieldDefinition where
  | mk (attrs : FieldAttrs) (items : FItems) (properties : FProps)

/-- `Optional[FieldDefinition]` for the `items` attribute. -/
inductive FItems where
  | none
  | some (fd : FieldDefinition)

/-- `Optional[Dict[str, FieldDefinition]]` for the `properties`
attribute. -/
inductive FProps where
  | none
  | some (props : FPropList)

/-- The entries of a `properties` mapping, in insertion order. -/
inductive FPropList where
  | nil
  | cons (name : String) (fd : FieldDefinition) (rest : FPropList)

end

def FieldDefinition.attrs : FieldDefinition → FieldAttrs
  | .mk a _ _ => a

def FieldDefinition.items : FieldDefinition → FItems
  | .mk _ i _ => i

def FieldDefinition.properties : FieldDefinition → FProps
  | .mk _ _ p => p

def FieldDefinition.type (fd : FieldDefinition) : String := fd.attrs.type

def FieldDefinition.required (fd : FieldDefinition) : Bool := fd.attrs.required

def FieldDefinition.pattern (fd : FieldDefinition) : Option String := fd.attrs.pattern

def FieldDefinition.format (fd : FieldDefinition) : Option String := fd.attrs.format

def FieldDefinition.min (fd : FieldDefinition) : Option Scalar := fd.attrs.min

def FieldDefinition.max (fd : FieldDefinition) : Option Scalar := fd.attrs.max

def FieldDefinition.min_length (fd : FieldDefinition) : Option Int := fd.attrs.min_length

def FieldDefinition.max_length (fd : FieldDefinition) : Option Int := fd.attrs.max_length

def FieldDefinition.description (fd : FieldDefinition) : Option String := fd.attrs.description

def FieldDefinition.enum (fd : FieldDefinition) : Option (List Scalar) := fd.attrs.enum

/-- `ContractSchema` (`app/models/schemas.py`): the parsed contract. -/
structure ContractSchema where
  contract_version : String
  domain : String
  description : Option String
  schema : List (String × FieldDefinition)
  quality_rules : Option (List (String × PyVal))

/-- First-match lookup in a schema field mapping. -/
def lookupFD : List (String × FieldDefinition) → String → Option FieldDefinition
  | [], _ => none
  | (k, fd) :: rest, key => if k = key then some fd else lookupFD rest key

def containsFD (fields : List (String × FieldDefinition)) (key : String) : Bool :=
  (lookupFD fields key).isSome

/-- `Change` (`app/core/change_detector.py`): one detected difference.
`old_value`/`new_value` keep the stringified form used by `to_dict`. -/
structure Change where
  type : String
  field : String
  description : String
  old_value : Option String
  new_value : Option String
  impact : String
deriving DecidableEq, Repr

/-- `ChangeReport` (`app/core/change_detector.py`). -/
structure ChangeReport where
  breaking_changes : List Change
  non_breaking_changes : List Change
  risk_score : Nat
  risk_level : String
  total_changes : Nat
  summary : String
deriving DecidableEq, Repr

/-- `ChangeReport.has_breaking_changes`. -/
def ChangeReport.has_breaking_changes (r : ChangeReport) : Bool :=
  r.breaking_changes.length != 0

/-- `ChangeDetector._is_pattern_stricter`: the length heuristic,
including the CPython truthiness test `if new_pattern and old_pattern`
under which an empty-string pattern falls through to `return False`. -/
def is_pattern_stricter : Option String → Option String → Bool
  | none, some _ => true
  | some _, none => false
  | none, none => false
  | some o, some n =>
    if o = n then false
    else if n ≠ "" && o ≠ "" then decide (o.length < n.length)
    else false

/-- `ChangeDetector._is_range_narrower`; both bound comparisons are
evaluated (the source computes `min_tighter` and `max_tighter` before
`or`-ing them), so either one can raise. -/
def is_range_narrower (old_spec new_spec : FieldDefinition) : Option Bool := do
  let mt ←
    match new_spec.min, old_spec.min with
    | Option.none, _ => pure false
    | Option.some _, Option.none => pure true
    | Option.some nm, Option.some om => scalarGt nm om
  let xt ←
    match new_spec.max, old_spec.max with
    | Option.none, _ => pure false
    | Option.some _, Option.none => pure true
    | Option.some nx, Option.some ox => scalarLt nx ox
  pure (mt || xt)

/-- `ChangeDetector._is_range_wider`. -/
def is_range_wider (old_spec new_spec : FieldDefinition) : Option Bool := do
  let mr ←
    match old_spec.min, new_spec.min with
    | Option.none, _ => pure false
    | Option.some _, Option.none => pure true
    | Option.some om, Option.some nm => scalarLt nm om
  let xr ←
    match old_spec.max, new_spec.max with
    | Option.none, _ => pure false
    | Option.some _, Option.none => pure true
    | Option.some ox, Option.some nx => scalarGt nx ox
  pure (mr || xr)

/-- Rendering of the `{"min": ..., "max": ...}` dict stored in a
range-constraint `Change`. -/
def renderRange (mn mx : Option Scalar) : String :=
  let r : Option Scalar → String := fun o =>
    match o with
    | some s => s.render
    | none => "None"
  "min=" ++ r mn ++ ",max=" ++ r mx

def renderEnum : Option (List Scalar) → String
  | some l => "[" ++ String.intercalate ", " (l.map Scalar.render) ++ "]"
  | none => "None"

/-- Python-set subset test over enum lists, using Python `==`
semantics for membership (`set(a) <= set(b)`). -/
def enumSubset (a b : List Scalar) : Bool :=
  a.all (fun x => b.any (fun y => scalarEq x y))

/-- Python-set proper-subset test (`set(a) < set(b)`). -/
def enumProperSubset (a b : List Scalar) : Bool :=
  enumSubset a b && !(enumSubset b a)

/-- `ChangeDetector._analyze_field_spec`. The changes are accumulated in
the source order: type, required flag, pattern, numeric range, format,
enum.  `none` models the uncaught `TypeError` that a mixed-type bound
comparison raises. -/
def type_change_list (field_name : String)
    (old_spec new_spec : FieldDefinition) : List Change :=
  if old_spec.type ≠ new_spec.type then
    [{ type := "TYPE_CHANGED", field := field_name,
       description := "Type changed from " ++ old_spec.type ++ " to " ++ new_spec.type,
       old_value := some old_spec.type, new_value := some new_spec.type,
       impact := "Existing data may fail type validation" }]
  else []

def required_change_lists (field_name : String)
    (old_spec new_spec : FieldDefinition) : List Change × List Change :=
  (if !old_spec.required && new_spec.required then
    [{ type := "FIELD_MADE_REQUIRED", field := field_name,
       description := "Field " ++ field_name ++ " made required",
       old_value := some "False", new_value := some "True",
       impact := "Data missing this field will fail validation" }]
   else [],
   if old_spec.required && !new_spec.required then
    [{ type := "FIELD_MADE_OPTIONAL", field := field_name,
       description := "Field " ++ field_name ++ " made optional",
       old_value := some "True", new_value := some "False",
       impact := "No impact - more permissive" }]
   else [])

def pattern_change_lists (field_name : String)
    (old_spec new_spec : FieldDefinition) : List Change × List Change :=
  if old_spec.pattern ≠ new_spec.pattern then
    if is_pattern_stricter old_spec.pattern new_spec.pattern then
      ([{ type := "PATTERN_STRICTER", field := field_name,
          description := "Pattern made stricter",
          old_value := old_spec.pattern, new_value := new_spec.pattern,
          impact := "Some previously valid values may fail" }], [])
    else
      ([], [{ type := "PATTERN_RELAXED", field := field_name,
              description := "Pattern made more permissive",
              old_value := old_spec.pattern, new_value := new_spec.pattern,
              impact := "More values will pass validation" }])
  else ([], [])

def tightened_change (field_name : String)
    (old_spec new_spec : FieldDefinition) : Change :=
  { type := "CONSTRAINT_TIGHTENED", field := field_name,
    description := "Numeric constraints tightened",
    old_value := some (renderRange old_spec.min old_spec.max),
    new_value := some (renderRange new_spec.min new_spec.max),
    impact := "Values outside new range will fail" }

def relaxed_change (field_name : String)
    (old_spec new_spec : FieldDefinition) : Change :=
  { type := "CONSTRAINT_RELAXED", field := field_name,
    description := "Numeric constraints relaxed",
    old_value := some (renderRange old_spec.min old_spec.max),
    new_value := some (renderRange new_spec.min new_spec.max),
    impact := "More values will pass validation" }

def format_change_list (field_name : String)
    (old_spec new_spec : FieldDefinition) : List Change :=
  if old_spec.format ≠ new_spec.format then
    [{ type := "FORMAT_CHANGED", field := field_name,
       description := "Format changed",
       old_value := old_spec.format, new_value := new_spec.format,
       impact := "Values valid in old format may fail" }]
  else []

/-- The enum block of `_analyze_field_spec`: Python-set comparison of
the two enum lists, where a `None` or empty old enum counts as the
empty set and a removed enum (`new is None`) records nothing. -/
def enum_change_lists (field_name : String)
    (old_spec new_spec : FieldDefinition) : List Change × List Change :=
  if old_spec.enum ≠ new_spec.enum then
    match new_spec.enum with
    | Option.none => ([], [])
    | Option.some newList =>
      if enumProperSubset newList (old_spec.enum.getD []) then
        ([{ type := "ENUM_VALUES_REMOVED", field := field_name,
            description := "Enum values restricted",
            old_value := some (renderEnum old_spec.enum),
            new_value := some (renderEnum new_spec.enum),
            impact := "Some previously valid values no longer allowed" }], [])
      else if enumProperSubset (old_spec.enum.getD []) newList then
        ([], [{ type := "ENUM_VALUES_ADDED", field := field_name,
                description := "Enum values expanded",
                old_value := some (renderEnum old_spec.enum),
                new_value := some (renderEnum new_spec.enum),
                impact := "More values now allowed" }])
      else ([], [])
  else ([], [])

/-- `ChangeDetector._analyze_field_spec`. The changes are accumulated in
the source order: type, required flag, pattern, numeric range, format,
enum.  `none` models the uncaught `TypeError` that a mixed-type bound
comparison raises (the wider check runs only when the narrower check
returned `False`). -/
def analyze_field_spec (field_name : String)
    (old_spec new_spec : FieldDefinition) :
    Option (List Change × List Change) := do
  let nar ← is_range_narrower old_spec new_spec
  let rangePair ←
    if nar then
      pure ([tightened_change field_name old_spec new_spec], ([] : List Change))
    else do
      let wid ← is_range_wider old_spec new_spec
      if wid then
        pure (([] : List Change), [relaxed_change field_name old_spec new_spec])
      else
        pure (([] : List Change), ([] : List Change))
  pure (type_change_list field_name old_spec new_spec ++
          (required_change_lists field_name old_spec new_spec).1 ++
          (pattern_change_lists field_name old_spec new_spec).1 ++
          rangePair.1 ++
          format_change_list field_name old_spec new_spec ++
          (enum_change_lists field_name old_spec new_spec).1,
        (required_change_lists field_name old_spec new_spec).2 ++
          (pattern_change_lists field_name old_spec new_spec).2 ++
          rangePair.2 ++
          (enum_change_lists field_name old_spec new_spec).2)

/-- The common-fields loop of `ChangeDetector._analyze_fields`; both
specs are fetched by dict lookup (`old_fields[field]`,
`new_fields[field]`), as in the source. -/
def analyze_common (old_full : List (String × FieldDefinition)) :
    List (String × FieldDefinition) →
    List (String × FieldDefinition) → Option (List Change × List Change)
  | [], _ => some ([], [])
  | (k, _) :: rest, newFields =>
    match lookupFD newFields k with
    | Option.none => analyze_common old_full rest newFields
    | Option.some fdNew =>
      match lookupFD old_full k with
      | Option.none => analyze_common old_full rest newFields
      | Option.some fdOld => do
        let p ← analyze_field_spec k fdOld fdNew
        let q ← analyze_common old_full rest newFields
        pure (p.1 ++ q.1, p.2 ++ q.2)

/-- `ChangeDetector._analyze_fields`.  The source iterates the set
differences / intersection of the two key sets; schema mappings have
unique keys, so iterating the association lists is equivalent (up to
the unspecified Python set iteration order, which no claim relies
on). -/
def analyze_fields (old_fields new_fields : List (String × FieldDefinition)) :
    Option (List Change × List Change) := do
  let removed : List Change :=
    old_fields.filterMap (fun p =>
      if containsFD new_fields p.1 then Option.none
      else Option.some
        { type := "FIELD_REMOVED", field := p.1,
          description := "Field " ++ p.1 ++ " was removed",
          old_value := some p.2.type, new_value := none,
          impact := "Consumers reading this field will fail" })
  let addedB : List Change :=
    new_fields.filterMap (fun p =>
      if containsFD old_fields p.1 then Option.none
      else if p.2.required then
        Option.some
          { type := "REQUIRED_FIELD_ADDED", field := p.1,
            description := "Required field " ++ p.1 ++ " was added",
            old_value := none, new_value := some p.2.type,
            impact := "Existing data missing this field will fail validation" }
      else Option.none)
  let addedNB : List Change :=
    new_fields.filterMap (fun p =>
      if containsFD old_fields p.1 then Option.none
      else if p.2.required then Option.none
      else
        Option.some
          { type := "OPTIONAL_FIELD_ADDED", field := p.1,
            description := "Optional field " ++ p.1 ++ " was added",
            old_value := none, new_value := some p.2.type,
            impact := "No impact on existing consumers" })
  let common ← analyze_common old_fields old_fields new_fields
  pure (removed ++ addedB ++ common.1, addedNB ++ common.2)

/-- `ChangeDetector._calculate_risk_score`. -/
def calculate_risk_score (breaking non_breaking : List Change) : Nat :=
  Nat.min (breaking.length * 15 + non_breaking.length * 3) 100

/-- `ChangeDetector._get_risk_level`. -/
def get_risk_level (score : Nat) : String :=
  if score ≤ 20 then "LOW"
  else if score ≤ 50 then "MEDIUM"
  else if score ≤ 80 then "HIGH"
  else "CRITICAL"

/-- `ChangeDetector._generate_summary`. -/
def generate_summary (breaking non_breaking : List Change)
    (risk_level : String) : String :=
  if breaking.length + non_breaking.length = 0 then "No changes detected"
  else
    let parts : List String :=
      (if breaking.length != 0 then
        [toString breaking.length ++ " breaking change(s)"] else []) ++
      (if non_breaking.length != 0 then
        [toString non_breaking.length ++ " non-breaking change(s)"] else [])
    let s := "Detected " ++ String.intercalate ", " parts ++
      ". Risk level: " ++ risk_level ++ "."
    if breaking.length != 0 then
      s ++ " This update requires a major version bump."
    else if non_breaking.length != 0 then
      s ++ " This update requires a minor version bump."
    else s

/-- `ChangeDetector.detect_changes`. -/
def detect_changes (old_schema new_schema : ContractSchema) :
    Option ChangeReport := do
  let p ← analyze_fields old_schema.schema new_schema.schema
  let score := calculate_risk_score p.1 p.2
  let level := get_risk_level score
  pure { breaking_changes := p.1, non_breaking_changes := p.2,
         risk_score := score, risk_level := level,
         total_changes := p.1.length + p.2.length,
         summary := generate_summary p.1 p.2 level }

def is_digit_char (c : Char) : Bool := '0' ≤ c && c ≤ '9'

def digits_val (l : List Char) : Nat :=
  l.foldl (fun acc c => acc * 10 + (c.toNat - 48)) 0

def trim_spaces (l : List Char) : List Char :=
  ((l.dropWhile (fun c => c = ' ')).reverse.dropWhile (fun c => c = ' ')).reverse

/-- Model of Python `int(str)`: optional surrounding whitespace, optional
sign, then decimal digits (`none` models the raised `ValueError`;
digit-group underscores are not modelled). -/
def pyInt (s : String) : Option Int :=
  match trim_spaces s.data with
  | '-' :: ds =>
    if ds.length > 0 && ds.all is_digit_char then some (-(digits_val ds : Int))
    else none
  | '+' :: ds =>
    if ds.length > 0 && ds.all is_digit_char then some (digits_val ds : Int)
    else none
  | ds =>
    if ds.length > 0 && ds.all is_digit_char then some (digits_val ds : Int)
    else none

/-- Model of Python `s.split(".")`. -/
def split_dot_chars : List Char → List (List Char)
  | [] => [[]]
  | c :: rest =>
    let r := split_dot_chars rest
    if c = '.' then [] :: r
    else
      match r with
      | h :: t => (c :: h) :: t
      | [] => [[c]]

def py_split_dot (s : String) : List String :=
  (split_dot_chars s.data).map (fun l => String.mk l)

/-- The version-string decomposition in
`VersionController.calculate_next_version`: `parts = v.split(".")`,
`major = int(parts[0])`, `minor = int(parts[1])`,
`patch = int(parts[2]) if len(parts) > 2 else 0`.  `none` models the
`IndexError`/`ValueError` raised on malformed input. -/
def parse_version (s : String) : Option (Int × Int × Int) := do
  let parts := py_split_dot s
  let p0 ← parts[0]?
  let p1 ← parts[1]?
  let major ← pyInt p0
  let minor ← pyInt p1
  let patch ←
    if parts.length > 2 then do
      let p2 ← parts[2]?
      pyInt p2
    else pure 0
  pure (major, minor, patch)

def format_version (major minor patch : Int) : String :=
  toString major ++ "." ++ toString minor ++ "." ++ toString patch

/-- `VersionController.calculate_next_version`. -/
def calculate_next_version (current_version : String) (change_report : ChangeReport) :
    Option String := do
  let v ← parse_version current_version
  if change_report.has_breaking_changes then
    pure (format_version (v.1 + 1) 0 0)
  else if change_report.non_breaking_changes.length > 0 then
    pure (format_version v.1 (v.2.1 + 1) 0)
  else
    pure (format_version v.1 v.2.1 (v.2.2 + 1))

/-- `VersionController._determine_change_type`. -/
def determine_change_type (change_report : ChangeReport) : String :=
  if change_report.has_breaking_changes then "BREAKING"
  else if change_report.non_breaking_changes.length > 0 then "NON_BREAKING"
  else "PATCH"

/-- A `contracts` table row (the columns the controller touches;
timestamps are not modelled). -/
structure Contract where
  id : String
  version : String
  yaml_content : String
deriving DecidableEq, Repr

/-- The `change_summary` JSON persisted with a version record. -/
structure ChangeSummary where
  breaking_changes : List Change
  non_breaking_changes : List Change
  risk_score : Nat
  risk_level : String
  total_changes : Nat
  summary : String
  rollback_info : Option (String × String × String)
deriving DecidableEq, Repr

/-- A `contract_versions` table row. -/
structure ContractVersion where
  contract_id : String
  version : String
  yaml_content : String
  change_type : String
  change_summary : ChangeSummary
  created_by : String
deriving DecidableEq, Repr

/-- The persistence collaborator: the two tables the version controller
reads and writes. -/
structure DbState where
  contracts : List Contract
  versions : List ContractVersion

/-- Exceptions raised by `rollback_to_version`. -/
inductive RollbackErr where
  | contractNotFound
  | targetVersionNotFound
  | valueError
deriving DecidableEq, Repr

/-- `VersionController.get_version_by_number` (first matching row). -/
def get_version_by_number (st : DbState) (contract_id version : String) :
    Option ContractVersion :=
  st.versions.find? (fun v => v.contract_id = contract_id && v.version = version)

/-- `VersionController.rollback_to_version`.  Returns the new database
state, the updated contract row and the appended version record.  The
change detector and the YAML parser are never consulted: the new version
number is derived from the current version string alone and the target
content is copied verbatim. -/
def rollback_to_version (st : DbState)
    (contract_id target_version created_by reason : String) :
    Except RollbackErr (DbState × Contract × ContractVersion) := do
  let contract ←
    match st.contracts.find? (fun c => c.id = contract_id) with
    | some c => Except.ok c
    | none => Except.error RollbackErr.contractNotFound
  let target ←
    match get_version_by_number st contract_id target_version with
    | some v => Except.ok v
    | none => Except.error RollbackErr.targetVersionNotFound
  let current_version := contract.version
  let parts := py_split_dot current_version
  let major ←
    match pyInt (parts.headD "") with
    | some m => Except.ok m
    | none => Except.error RollbackErr.valueError
  let new_version := toString (major + 1) ++ ".0.0"
  let rollback_version : ContractVersion :=
    { contract_id := contract_id, version := new_version,
      yaml_content := target.yaml_content, change_type := "ROLLBACK",
      change_summary :=
        { breaking_changes := [], non_breaking_changes := [],
          risk_score := 0, risk_level := "LOW", total_changes := 0,
          summary := "Rolled back from v" ++ current_version ++
            " to v" ++ target_version,
          rollback_info := some (current_version, target_version, reason) },
      created_by := created_by }
  let contract2 : Contract :=
    { contract with yaml_content := target.yaml_content, version := new_version }
  let st2 : DbState :=
    { contracts := st.contracts.map (fun c => if c.id = contract_id then contract2 else c),
      versions := st.versions ++ [rollback_version] }
  pure (st2, contract2, rollback_version)

/-- `ValidationError` (`app/models/schemas.py`).  `value`/`expected`
keep the stringified renderings; message text is reproduced up to the
embedding of Python string formatting. -/
structure ValidationError where
  field : String
  error_type : String
  message : String
  value : Option String
  expected : Option String
deriving DecidableEq, Repr

/-- Approximation of Python `str(value)` for messages (containers are
abbreviated; no verified claim inspects these strings). -/
def pyStrV : PyVal → String
  | .vNull => "None"
  | .vStr s => s
  | .vInt n => toString n
  | .vFloat n => toString n
  | .vBool b => if b then "True" else "False"
  | .vList _ => "[list]"
  | .vDict _ => "[dict]"

/-- `type(value).__name__`. -/
def typeName : PyVal → String
  | .vNull => "NoneType"
  | .vStr _ => "str"
  | .vInt _ => "int"
  | .vFloat _ => "float"
  | .vBool _ => "bool"
  | .vList _ => "list"
  | .vDict _ => "dict"

def pyNum : PyVal → Option Int
  | .vInt n => some n
  | .vFloat n => some n
  | _ => none

/-- The `type_checks` table of `SchemaValidator._validate_type`.
Python `bool` is a subclass of `int`, so a boolean passes the
`timestamp` check but is explicitly excluded from `integer`/`float`;
`datetime` instances are outside the record model. -/
def type_check_ok (expected_type : String) (v : PyVal) : Bool :=
  if expected_type = "string" then (match v with | .vStr _ => true | _ => false)
  else if expected_type = "integer" then (match v with | .vInt _ => true | _ => false)
  else if expected_type = "float" then
    (match v with | .vInt _ => true | .vFloat _ => true | _ => false)
  else if expected_type = "boolean" then (match v with | .vBool _ => true | _ => false)
  else if expected_type = "timestamp" then
    (match v with | .vStr _ => true | .vInt _ => true | .vFloat _ => true | .vBool _ => true | _ => false)
  else if expected_type = "date" then (match v with | .vStr _ => true | _ => false)
  else if expected_type = "array" then (match v with | .vList _ => true | _ => false)
  else if expected_type = "object" then (match v with | .vDict _ => true | _ => false)
  else false

/-- `SchemaValidator._validate_type`. -/
def validate_type (field_name : String) (value : PyVal) (expected_type : String) :
    Option ValidationError :=
  if type_check_ok expected_type value then none
  else some
    { field := field_name, error_type := "TYPE_MISMATCH",
      message := "Expected " ++ expected_type ++ ", got " ++ typeName value,
      value := some ((pyStrV value).take 100),
      expected := some expected_type }

/-- The validator instance (`SchemaValidator.__init__`): the schema plus
the regex oracles (`rc` = does `re.compile` succeed, `rmatch` =
compiled-pattern `.match`, `fmatch` = the fixed format regexes of
`_validate_format`). -/
structure SchemaValidator where
  schema : List (String × FieldDefinition)
  rc : String → Bool
  rmatch : String → String → Bool
  fmatch : String → String → Bool

/-- `SchemaValidator._compile_patterns`: top-level fields whose pattern
is truthy and compiles, with the pattern that was compiled. -/
def compiled_patterns (ctx : SchemaValidator) : List (String × String) :=
  ctx.schema.filterMap (fun p =>
    match p.2.pattern with
    | some pat => if pat ≠ "" && ctx.rc pat then some (p.1, pat) else none
    | none => none)

def lookupStr : List (String × String) → String → Option String
  | [], _ => none
  | (k, v) :: rest, key => if k = key then some v else lookupStr rest key

/-- `SchemaValidator._validate_format` (unknown formats pass). -/
def validate_format (ctx : SchemaValidator) (value : String) (format_type : String) : Bool :=
  if format_type = "email" || format_type = "url" || format_type = "uuid" ||
      format_type = "ipv4" then
    ctx.fmatch format_type value
  else true

/-- `SchemaValidator._validate_string`.  The pattern check fires only
when the field path has an entry in `compiled_patterns` (built from the
top-level schema), and matches against the pattern compiled there. -/
def validate_string (ctx : SchemaValidator) (field_name : String) (value : String)
    (attrs : FieldAttrs) : List ValidationError :=
  let patErrs :=
    match attrs.pattern with
    | some pat =>
      if pat ≠ "" then
        match lookupStr (compiled_patterns ctx) field_name with
        | some cpat =>
          if ctx.rmatch cpat value then []
          else [{ field := field_name, error_type := "PATTERN_MISMATCH",
                  message := "Value does not match pattern: " ++ pat,
                  value := some (value.take 100), expected := some pat }]
        | none => []
      else []
    | none => []
  let fmtErrs :=
    match attrs.format with
    | some f =>
      if f ≠ "" then
        if validate_format ctx value f then []
        else [{ field := field_name, error_type := "FORMAT_MISMATCH",
                message := "Value does not match format: " ++ f,
                value := some (value.take 100), expected := some f }]
      else []
    | none => []
  let minLenErrs :=
    match attrs.min_length with
    | some ml =>
      if (value.length : Int) < ml then
        [{ field := field_name, error_type := "LENGTH_TOO_SHORT",
           message := "Length " ++ toString value.length ++
             " is less than minimum " ++ toString ml,
           value := some (value.take 100),
           expected := some ("min_length: " ++ toString ml) }]
      else []
    | none => []
  let maxLenErrs :=
    match attrs.max_length with
    | some ml =>
      if (value.length : Int) > ml then
        [{ field := field_name, error_type := "LENGTH_TOO_LONG",
           message := "Length " ++ toString value.length ++
             " exceeds maximum " ++ toString ml,
           value := some (value.take 100),
           expected := some ("max_length: " ++ toString ml) }]
      else []
    | none => []
  let enumErrs :=
    match attrs.enum with
    | some l =>
      if !l.isEmpty && !(l.any (fun e => scalarEq (Scalar.sStr value) e)) then
        [{ field := field_name, error_type := "ENUM_MISMATCH",
           message := "Value not in allowed list",
           value := some (value.take 100), expected := some (renderEnum attrs.enum) }]
      else []
    | none => []
  patErrs ++ fmtErrs ++ minLenErrs ++ maxLenErrs ++ enumErrs

/-- `value < bound` / `value > bound` for a numeric value against a
declared scalar bound; `none` is the `TypeError` of a number/string
comparison. -/
def intLtScalar (n : Int) (s : Scalar) : Option Bool := scalarLt (Scalar.sInt n) s

def intGtScalar (n : Int) (s : Scalar) : Option Bool := scalarGt (Scalar.sInt n) s

/-- `SchemaValidator._validate_number`. -/
def validate_number (field_name : String) (value : Int) (attrs : FieldAttrs) :
    Option (List ValidationError) := do
  let minErrs ←
    match attrs.min with
    | some m => do
      let b ← intLtScalar value m
      pure (if b then
        [{ field := field_name, error_type := "VALUE_TOO_SMALL",
           message := "Value " ++ toString value ++ " is less than minimum " ++ m.render,
           value := some (toString value),
           expected := some ("min: " ++ m.render) }]
        else [])
    | none => pure []
  let maxErrs ←
    match attrs.max with
    | some m => do
      let b ← intGtScalar value m
      pure (if b then
        [{ field := field_name, error_type := "VALUE_TOO_LARGE",
           message := "Value " ++ toString value ++ " exceeds maximum " ++ m.render,
           value := some (toString value),
           expected := some ("max: " ++ m.render) }]
        else [])
    | none => pure []
  let enumErrs :=
    match attrs.enum with
    | some l =>
      if !l.isEmpty && !(l.any (fun e => scalarEq (Scalar.sInt value) e)) then
        [{ field := field_name, error_type := "ENUM_MISMATCH",
           message := "Value not in allowed list",
           value := some (toString value), expected := some (renderEnum attrs.enum) }]
      else []
    | none => []
  pure (minErrs ++ maxErrs ++ enumErrs)

def scalar_truthy : Scalar → Bool
  | .sInt n => n ≠ 0
  | .sStr s => s ≠ ""
  | .sBool b => b

/-- Modelled approximation of `datetime.fromisoformat` as an order key:
accepts ISO-looking strings and compares them by their digit sequence
(order-correct for equal-format ISO strings).  No verified claim
depends on timestamp parsing semantics. -/
def iso_key (s : String) : Option Int :=
  if s.length ≥ 8 && (s.take 4).all Char.isDigit &&
      s.all (fun c => c.isDigit || c = '-' || c = ':' || c = 'T' ||
        c = '+' || c = '.' || c = ' ') then
    some ((s.toList.filter Char.isDigit).foldl
      (fun acc c => acc * 10 + ((c.toNat : Int) - 48)) 0)
  else none

/-- The timestamp key of a record value (`fromisoformat` for strings,
`fromtimestamp` for numbers); `none` is the unparsable-string case. -/
def ts_value_key : PyVal → Option Int
  | .vStr s => iso_key (s.replace "Z" "+00:00")
  | .vInt n => some n
  | .vFloat n => some n
  | .vBool b => some (if b then 1 else 0)
  | _ => none

/-- `SchemaValidator._validate_timestamp`.  The whole body sits in a
`try`, so a bound that fails to parse turns into an
`INVALID_TIMESTAMP` error appended after any errors already found;
note the truthiness guards `if field_def.min:` / `if field_def.max:`
(a zero/empty bound is skipped). -/
def validate_timestamp (field_name : String) (value : PyVal) (attrs : FieldAttrs) :
    List ValidationError :=
  let invalid : String → ValidationError := fun msg =>
    { field := field_name, error_type := "INVALID_TIMESTAMP",
      message := msg, value := some ((pyStrV value).take 100),
      expected := some "Valid timestamp" }
  match value with
  | .vList _ =>
    [{ field := field_name, error_type := "INVALID_TIMESTAMP",
       message := "Cannot parse timestamp", value := some ((pyStrV value).take 100),
       expected := some "ISO 8601 or Unix timestamp" }]
  | .vDict _ =>
    [{ field := field_name, error_type := "INVALID_TIMESTAMP",
       message := "Cannot parse timestamp", value := some ((pyStrV value).take 100),
       expected := some "ISO 8601 or Unix timestamp" }]
  | .vNull =>
    [{ field := field_name, error_type := "INVALID_TIMESTAMP",
       message := "Cannot parse timestamp", value := some ((pyStrV value).take 100),
       expected := some "ISO 8601 or Unix timestamp" }]
  | v =>
    match ts_value_key v with
    | none => [invalid "Cannot parse timestamp: parse error"]
    | some dt =>
      let minPart : Option (List ValidationError) :=
        match attrs.min with
        | some m =>
          if scalar_truthy m then
            match iso_key ((m.render).replace "Z" "+00:00") with
            | some mk =>
              some (if dt < mk then
                [{ field := field_name, error_type := "TIMESTAMP_TOO_OLD",
                   message := "Timestamp before minimum: " ++ m.render,
                   value := some ((pyStrV value).take 100),
                   expected := some ("min: " ++ m.render) }]
                else [])
            | none => none
          else some []
        | none => some []
      match minPart with
      | none => [invalid "Cannot parse timestamp: parse error"]
      | some es1 =>
        let maxPart : Option (List ValidationError) :=
          match attrs.max with
          | some m =>
            if scalar_truthy m then
              match iso_key ((m.render).replace "Z" "+00:00") with
              | some mk =>
                some (if dt > mk then
                  [{ field := field_name, error_type := "TIMESTAMP_TOO_RECENT",
                     message := "Timestamp after maximum: " ++ m.render,
                     value := some ((pyStrV value).take 100),
                     expected := some ("max: " ++ m.render) }]
                  else [])
              | none => none
            else some []
          | none => some []
        match maxPart with
        | none => es1 ++ [invalid "Cannot parse timestamp: parse error"]
        | some es2 => es1 ++ es2

mutual

/-- `SchemaValidator._validate_nested_field`. -/
def validate_nested_field (ctx : SchemaValidator) (field_path : String)
    (value : PyVal) : FieldDefinition → Option (List ValidationError)
  | .mk attrs _ props =>
    match validate_type field_path value attrs.type with
    | Option.some te => some [te]
    | Option.none =>
      if attrs.type = "string" then
        match value with
        | .vStr s => some (validate_string ctx field_path s attrs)
        | _ => some []
      else if attrs.type = "integer" || attrs.type = "float" then
        match pyNum value with
        | some n => validate_number field_path n attrs
        | none => some []
      else if attrs.type = "object" then
        match props with
        | .some pl =>
          match value with
          | .vDict d => validate_object_entries ctx field_path pl d []
          | _ => some []
        | .none => some []
      else some []

/-- The property loop of `SchemaValidator._validate_object`: a missing
required property is appended with `continue` (no cap check); otherwise
the property is validated and the loop breaks once the local error list
reaches 10. -/
def validate_object_entries (ctx : SchemaValidator) (obj_path : String) :
    FPropList → List (String × PyVal) → List ValidationError →
    Option (List ValidationError)
  | .nil, _, errors => some errors
  | .cons pname pdef rest, d, errors =>
    let prop_path := obj_path ++ "." ++ pname
    if pdef.required && !(pyHasKey d pname) then
      validate_object_entries ctx obj_path rest d (errors ++
        [{ field := prop_path, error_type := "REQUIRED_FIELD_MISSING",
           message := "Required property " ++ pname ++ " is missing",
           value := none, expected := some "required property" }])
    else
      match pyLookup d pname with
      | Option.some pv =>
        match validate_nested_field ctx prop_path pv pdef with
        | Option.some pe =>
          let errors2 := errors ++ pe
          if 10 ≤ errors2.length then some errors2
          else validate_object_entries ctx obj_path rest d errors2
        | Option.none => none
      | Option.none =>
        if 10 ≤ errors.length then some errors
        else validate_object_entries ctx obj_path rest d errors

end

/-- The item loop of `SchemaValidator._validate_array` (first ten items,
breaking once the local error list reaches 10). -/
def validate_array_items (ctx : SchemaValidator) (field_name : String)
    (ifd : FieldDefinition) : List PyVal → Nat → List ValidationError →
    Option (List ValidationError)
  | [], _, errors => some errors
  | item :: rest, idx, errors => do
    let ie ← validate_nested_field ctx
      (field_name ++ "[" ++ toString idx ++ "]") item ifd
    let errors2 := errors ++ ie
    if 10 ≤ errors2.length then some errors2
    else validate_array_items ctx field_name ifd rest (idx + 1) errors2

/-- `SchemaValidator._validate_array`. -/
def validate_array (ctx : SchemaValidator) (field_name : String)
    (l : List PyVal) (fd : FieldDefinition) : Option (List ValidationError) := do
  let shortErrs ←
    match fd.min with
    | some m => do
      let b ← intLtScalar (l.length : Int) m
      pure (if b then
        [{ field := field_name, error_type := "ARRAY_TOO_SHORT",
           message := "Array length " ++ toString l.length ++
             " less than minimum " ++ m.render,
           value := some ("[" ++ toString l.length ++ " items]"),
           expected := some ("min: " ++ m.render) }]
        else [])
    | none => pure []
  let longErrs ←
    match fd.max with
    | some m => do
      let b ← intGtScalar (l.length : Int) m
      pure (if b then
        [{ field := field_name, error_type := "ARRAY_TOO_LONG",
           message := "Array length " ++ toString l.length ++
             " exceeds maximum " ++ m.render,
           value := some ("[" ++ toString l.length ++ " items]"),
           expected := some ("max: " ++ m.render) }]
        else [])
    | none => pure []
  match fd.items with
  | .some ifd =>
    validate_array_items ctx field_name ifd (l.take 10) 0 (shortErrs ++ longErrs)
  | .none => pure (shortErrs ++ longErrs)

/-- The outcome of one iteration of the `SchemaValidator.validate` loop
for a single declared field.  `missingErr` and `typeErr` correspond to
the two `continue` statements, which append their error and skip the
10-error cap check; `checked` carries the type-specific errors after
which the cap is checked; `crash` is an uncaught `TypeError`. -/
inductive StepResult where
  | missingErr (e : ValidationError)
  | skip
  | typeErr (e : ValidationError)
  | checked (es : List ValidationError)
  | crash
deriving DecidableEq, Repr

/-- Wraps the optional type-specific check result: a raised `TypeError`
becomes `crash`, otherwise the collected errors reach the cap check. -/
def step_of_result : Option (List ValidationError) → StepResult
  | some es => .checked es
  | none => .crash

def required_missing_error (field_name : String) : ValidationError :=
  { field := field_name, error_type := "REQUIRED_FIELD_MISSING",
    message := "Required field " ++ field_name ++ " is missing",
    value := none, expected := some "required field" }

/-- One iteration of the `SchemaValidator.validate` field loop. -/
def field_step (ctx : SchemaValidator) (field_name : String)
    (fd : FieldDefinition) (data : List (String × PyVal)) : StepResult :=
  if fd.required && !(pyHasKey data field_name) then
    .missingErr (required_missing_error field_name)
  else
    match pyLookup data field_name with
    | Option.none => .skip
    | Option.some value =>
      if (match value with | .vNull => true | _ => false) && !fd.required then
        .skip
      else
        match validate_type field_name value fd.type with
        | Option.some te => .typeErr te
        | Option.none =>
          let res : Option (List ValidationError) :=
            if fd.type = "string" then
              match value with
              | .vStr s => some (validate_string ctx field_name s fd.attrs)
              | _ => some []
            else if fd.type = "integer" || fd.type = "float" then
              match pyNum value with
              | some n => validate_number field_name n fd.attrs
              | none => some []
            else if fd.type = "timestamp" then
              some (validate_timestamp field_name value fd.attrs)
            else if fd.type = "array" then
              match value with
              | .vList l => validate_array ctx field_name l fd
              | _ => some []
            else if fd.type = "object" then
              match fd.properties with
              | .some pl =>
                match value with
                | .vDict d => validate_object_entries ctx field_name pl d []
                | _ => some []
              | .none => some []
            else some []
          step_of_result res

/-- The field loop of `SchemaValidator.validate`: the cap check
`if len(errors) >= 10: break` runs only at the end of a `checked`
iteration — both `continue` paths bypass it. -/
def validate_go (ctx : SchemaValidator) :
    List (String × FieldDefinition) → List (String × PyVal) →
    List ValidationError → Option (List ValidationError)
  | [], _, errors => some errors
  | (fname, fd) :: rest, data, errors =>
    match field_step ctx fname fd data with
    | .missingErr e => validate_go ctx rest data (errors ++ [e])
    | .skip => validate_go ctx rest data errors
    | .typeErr e => validate_go ctx rest data (errors ++ [e])
    | .checked es =>
      let errors2 := errors ++ es
      if 10 ≤ errors2.length then some errors2
      else validate_go ctx rest data errors2
    | .crash => none

/-- `SchemaValidator.validate`. -/
def validate (ctx : SchemaValidator) (data : List (String × PyVal)) :
    Option (List ValidationError) :=
  validate_go ctx ctx.schema data []

/-- Exceptions of `YAMLParser.parse_yaml` (`YAMLSyntaxError`,
`MissingRequiredKeyError`, `InvalidSchemaError`); `fuelOut` is an
artefact of the fuel-indexed recursion and is unreachable once the fuel
exceeds the nesting depth of the document. -/
inductive ParseErr where
  | syntaxErr
  | missingRequiredKey
  | invalidSchema
  | fuelOut
deriving DecidableEq, Repr

def allowed_types : List String :=
  ["string", "integer", "float", "boolean", "timestamp", "date", "array", "object"]

def allowed_formats : List String := ["email", "url", "uuid", "ipv4"]

/-- `re.match(r"^\d+\.\d+$", v)` of the `contract_version` validator. -/
def version_ok (s : String) : Bool :=
  match py_split_dot s with
  | [a, b] =>
    a.data.length > 0 && a.data.all is_digit_char &&
    b.data.length > 0 && b.data.all is_digit_char
  | _ => false

def scalarToVal : Scalar → PyVal
  | .sInt n => .vInt n
  | .sStr s => .vStr s
  | .sBool b => .vBool b

def valToScalar : PyVal → Option Scalar
  | .vInt n => some (.sInt n)
  | .vFloat n => some (.sInt n)
  | .vStr s => some (.sStr s)
  | .vBool b => some (.sBool b)
  | _ => none

/-- Request/result pair letting `validate_field_definition` and its
properties loop share one fuel-indexed recursion. -/
inductive PReq where
  | field (spec : PyVal)
  | props (entries : List (String × PyVal))

inductive PRes where
  | field (fd : FieldDefinition)
  | props (pl : FPropList)

/-- An optional scalar-valued key of a field spec (`min` / `max`); a
present non-scalar value is rejected when `FieldDefinition` is
constructed. -/
def scalar_field (d : List (String × PyVal)) (key : String) :
    Except ParseErr (Option Scalar) :=
  match pyLookup d key with
  | none => .ok Option.none
  | some .vNull => .ok Option.none
  | some v =>
    match valToScalar v with
    | some s => .ok (some s)
    | none => .error .invalidSchema

/-- An optional integer-valued key (`min_length` / `max_length`). -/
def int_field (d : List (String × PyVal)) (key : String) :
    Except ParseErr (Option Int) :=
  match pyLookup d key with
  | none => .ok Option.none
  | some .vNull => .ok Option.none
  | some (.vInt n) => .ok (some n)
  | some _ => .error .invalidSchema

/-- `YAMLParser.validate_field_definition` (and its recursion into
`items`/`properties`), indexed by fuel.  `rc` is the `re.compile`
success oracle.  All structural failures — missing or unknown `type`,
non-compiling pattern, unknown format, inverted or incomparable
`min`/`max` or `min_length`/`max_length`, array without `items`,
object without `properties`, or a sub-value `pydantic` would reject —
collapse to `invalidSchema`, matching the source where every such
exception is wrapped into `InvalidSchemaError`. -/
def parse_type_field (d : List (String × PyVal)) : Except ParseErr String :=
  match pyLookup d "type" with
  | some (.vStr t) =>
    if t ∈ allowed_types then Except.ok t
    else Except.error ParseErr.invalidSchema
  | some _ => Except.error ParseErr.invalidSchema
  | none => Except.error ParseErr.invalidSchema

def parse_pattern_field (rc : String → Bool) (d : List (String × PyVal)) :
    Except ParseErr (Option String) :=
  match pyLookup d "pattern" with
  | none => Except.ok Option.none
  | some .vNull => Except.ok Option.none
  | some (.vStr s) =>
    if s = "" then Except.ok (some "")
    else if rc s then Except.ok (some s)
    else Except.error ParseErr.invalidSchema
  | some _ => Except.error ParseErr.invalidSchema

def parse_format_field (d : List (String × PyVal)) :
    Except ParseErr (Option String) :=
  match pyLookup d "format" with
  | none => Except.ok Option.none
  | some .vNull => Except.ok Option.none
  | some (.vStr s) =>
    if s ∈ allowed_formats then Except.ok (some s)
    else Except.error ParseErr.invalidSchema
  | some _ => Except.error ParseErr.invalidSchema

/-- The `min > max` comparison of `validate_field_definition` (a raised
`TypeError` on incomparable bounds is wrapped to `InvalidSchemaError`
by `_parse_schema`). -/
def check_min_max (min_val max_val : Option Scalar) : Except ParseErr Unit :=
  match min_val, max_val with
  | some a, some b =>
    match scalarGt a b with
    | some true => Except.error ParseErr.invalidSchema
    | some false => Except.ok ()
    | none => Except.error ParseErr.invalidSchema
  | _, _ => Except.ok ()

def check_lengths (min_length max_length : Option Int) : Except ParseErr Unit :=
  match min_length, max_length with
  | some a, some b =>
    if a > b then Except.error ParseErr.invalidSchema else Except.ok ()
  | _, _ => Except.ok ()

def parse_required_field (d : List (String × PyVal)) : Except ParseErr Bool :=
  match pyLookup d "required" with
  | none => Except.ok true
  | some (.vBool b) => Except.ok b
  | some _ => Except.error ParseErr.invalidSchema

def parse_description_field (d : List (String × PyVal)) :
    Except ParseErr (Option String) :=
  match pyLookup d "description" with
  | none => Except.ok Option.none
  | some .vNull => Except.ok Option.none
  | some (.vStr s) => Except.ok (some s)
  | some _ => Except.error ParseErr.invalidSchema

def parse_enum_field (d : List (String × PyVal)) :
    Except ParseErr (Option (List Scalar)) :=
  match pyLookup d "enum" with
  | none => Except.ok Option.none
  | some .vNull => Except.ok Option.none
  | some (.vList l) =>
    match l.mapM valToScalar with
    | some sl => Except.ok (some sl)
    | none => Except.error ParseErr.invalidSchema
  | some _ => Except.error ParseErr.invalidSchema

/-- `YAMLParser.validate_field_definition` (and its recursion into
`items`/`properties`), indexed by fuel.  `rc` is the `re.compile`
success oracle.  All structural failures — missing or unknown `type`,
non-compiling pattern, unknown format, inverted or incomparable
`min`/`max` or `min_length`/`max_length`, array without `items`,
object without `properties`, or a sub-value `pydantic` would reject —
collapse to `invalidSchema`, matching the source where every such
exception is wrapped into `InvalidSchemaError`. -/
def parse_req (rc : String → Bool) : Nat → PReq → Except ParseErr PRes
  | 0, _ => .error .fuelOut
  | _ + 1, .props [] => .ok (.props .nil)
  | n + 1, .props ((k, v) :: rest) => do
    let r1 ← parse_req rc n (.field v)
    let fd ←
      match r1 with
      | .field fd => Except.ok fd
      | .props _ => Except.error ParseErr.invalidSchema
    let r2 ← parse_req rc n (.props rest)
    match r2 with
    | .props pl => Except.ok (PRes.props (.cons k fd pl))
    | .field _ => Except.error ParseErr.invalidSchema
  | n + 1, .field spec =>
    match spec with
    | .vDict d => do
      let ftype ← parse_type_field d
      let pattern ← parse_pattern_field rc d
      let format ← parse_format_field d
      let min_val ← scalar_field d "min"
      let max_val ← scalar_field d "max"
      let _ ← check_min_max min_val max_val
      let min_length ← int_field d "min_length"
      let max_length ← int_field d "max_length"
      let _ ← check_lengths min_length max_length
      let required ← parse_required_field d
      let description ← parse_description_field d
      let enum ← parse_enum_field d
      let items ←
        if ftype = "array" then
          match pyLookup d "items" with
          | none => Except.error ParseErr.invalidSchema
          | some iv => do
            let r ← parse_req rc n (.field iv)
            match r with
            | .field ifd => Except.ok (FItems.some ifd)
            | .props _ => Except.error ParseErr.invalidSchema
        else Except.ok FItems.none
      let props ←
        if ftype = "object" then
          match pyLookup d "properties" with
          | none => Except.error ParseErr.invalidSchema
          | some (.vDict pd) => do
            let r ← parse_req rc n (.props pd)
            match r with
            | .props pl => Except.ok (FProps.some pl)
            | .field _ => Except.error ParseErr.invalidSchema
          | some _ => Except.error ParseErr.invalidSchema
        else Except.ok FProps.none
      Except.ok (PRes.field (.mk
        { type := ftype, required := required, pattern := pattern,
          format := format, min := min_val, max := max_val,
          min_length := min_length, max_length := max_length,
          description := description, enum := enum }
        items props))
    | _ => .error .invalidSchema

/-- `YAMLParser.validate_field_definition` entry point. -/
def validate_field_definition (rc : String → Bool) (fuel : Nat) (spec : PyVal) :
    Except ParseErr FieldDefinition :=
  match parse_req rc fuel (.field spec) with
  | .ok (.field fd) => .ok fd
  | .ok (.props _) => .error .invalidSchema
  | .error e => .error e

/-- The field loop of `YAMLParser._parse_schema`: each field spec must
itself be a mapping. -/
def parse_schema_entries (rc : String → Bool) (fuel : Nat) :
    List (String × PyVal) → Except ParseErr (List (String × FieldDefinition))
  | [] => .ok []
  | (k, spec) :: rest =>
    match spec with
    | .vDict _ => do
      let fd ← validate_field_definition rc fuel spec
      let tail ← parse_schema_entries rc fuel rest
      .ok ((k, fd) :: tail)
    | _ => .error .invalidSchema

/-- `YAMLParser._parse_schema`. -/
def parse_schema (rc : String → Bool) (fuel : Nat) (schema_val : PyVal) :
    Except ParseErr (List (String × FieldDefinition)) :=
  match schema_val with
  | .vDict d =>
    if d.isEmpty then .error .invalidSchema
    else parse_schema_entries rc fuel d
  | _ => .error .invalidSchema

/-- Python numeric view used by the quality-rule checks
(`isinstance(x, (int, float))`, which admits `bool`). -/
def pyNumQ : PyVal → Option Int
  | .vInt n => some n
  | .vFloat n => some n
  | .vBool b => some (if b then 1 else 0)
  | _ => none

/-- `isinstance(x, int)` (which admits `bool`). -/
def pyIntQ : PyVal → Option Int
  | .vInt n => some n
  | .vBool b => some (if b then 1 else 0)
  | _ => none

/-- `YAMLParser.validate_quality_rules`. -/
def validate_quality_rules (rules : PyVal) :
    Except ParseErr (List (String × PyVal)) :=
  match rules with
  | .vDict r => do
    let freshPart ←
      match pyLookup r "freshness" with
      | none => Except.ok ([] : List (String × PyVal))
      | some f =>
        match f with
        | .vDict fd => do
          let hv ←
            match pyLookup fd "max_latency_hours" with
            | some v => Except.ok v
            | none => Except.error ParseErr.invalidSchema
          match pyNumQ hv with
          | some h =>
            if h > 0 then Except.ok [("freshness", f)]
            else Except.error ParseErr.invalidSchema
          | none => Except.error ParseErr.invalidSchema
        | _ => Except.error ParseErr.invalidSchema
    let complPart ←
      match pyLookup r "completeness" with
      | none => Except.ok ([] : List (String × PyVal))
      | some c =>
        match c with
        | .vDict cd => do
          let _ ←
            match pyLookup cd "min_row_count" with
            | none => Except.ok ()
            | some v =>
              match pyIntQ v with
              | some n =>
                if n ≥ 0 then Except.ok () else Except.error ParseErr.invalidSchema
              | none => Except.error ParseErr.invalidSchema
          let _ ←
            match pyLookup cd "max_null_percentage" with
            | none => Except.ok ()
            | some v =>
              match pyNumQ v with
              | some n =>
                if 0 ≤ n ∧ n ≤ 100 then Except.ok ()
                else Except.error ParseErr.invalidSchema
              | none => Except.error ParseErr.invalidSchema
          Except.ok [("completeness", c)]
        | _ => Except.error ParseErr.invalidSchema
    let uniqPart ←
      match pyLookup r "uniqueness" with
      | none => Except.ok ([] : List (String × PyVal))
      | some u =>
        match u with
        | .vDict ud => do
          let fv ←
            match pyLookup ud "fields" with
            | some v => Except.ok v
            | none => Except.error ParseErr.invalidSchema
          match fv with
          | .vList l =>
            if l.isEmpty then Except.error ParseErr.invalidSchema
            else Except.ok [("uniqueness", u)]
          | _ => Except.error ParseErr.invalidSchema
        | _ => Except.error ParseErr.invalidSchema
    let statPart ←
      match pyLookup r "statistics" with
      | none => Except.ok ([] : List (String × PyVal))
      | some s =>
        match s with
        | .vDict sd =>
          if sd.all (fun p => match p.2 with | .vDict _ => true | _ => false) then
            Except.ok [("statistics", s)]
          else Except.error ParseErr.invalidSchema
        | _ => Except.error ParseErr.invalidSchema
    Except.ok (freshPart ++ complPart ++ uniqPart ++ statPart)
  | _ => .error .invalidSchema

/-- `YAMLParser.parse_yaml`, over the value tree `yaml.safe_load`
produces.  A malformed `quality_rules` block is downgraded to
`quality_rules = None`; any schema-parsing failure is fatal
(`InvalidSchemaError`); the final `ContractSchema` construction
re-runs the pydantic validators (`contract_version` format, field
types of `domain`/`description`). -/
def parse_yaml (rc : String → Bool) (fuel : Nat) (data : PyVal) :
    Except ParseErr ContractSchema :=
  match data with
  | .vDict d =>
    if !(pyHasKey d "contract_version") then .error .missingRequiredKey
    else if !(pyHasKey d "schema") then .error .missingRequiredKey
    else
      match parse_schema rc fuel ((pyLookup d "schema").getD .vNull) with
      | .error .fuelOut => .error .fuelOut
      | .error _ => .error .invalidSchema
      | .ok fields => do
        let quality : Option (List (String × PyVal)) :=
          match pyLookup d "quality_rules" with
          | none => Option.none
          | some q =>
            match validate_quality_rules q with
            | .ok v => some v
            | .error _ => Option.none
        let cv ←
          match pyLookup d "contract_version" with
          | some (.vStr s) =>
            if version_ok s then Except.ok s else Except.error ParseErr.invalidSchema
          | _ => Except.error ParseErr.invalidSchema
        let domain ←
          match pyLookup d "domain" with
          | none => Except.ok "default"
          | some (.vStr s) => Except.ok s
          | some _ => Except.error ParseErr.invalidSchema
        let desc ←
          match pyLookup d "description" with
          | none => Except.ok Option.none
          | some .vNull => Except.ok Option.none
          | some (.vStr s) => Except.ok (some s)
          | some _ => Except.error ParseErr.invalidSchema
        Except.ok { contract_version := cv, domain := domain, description := desc,
                    schema := fields, quality_rules := quality }
  | _ => .error .syntaxErr

def wf_pattern (rc : String → Bool) (pat : Option String) : Bool :=
  match pat with
  | some p => p ≠ "" && rc p
  | none => true

def wf_format (fmt : Option String) : Bool :=
  match fmt with
  | some f => decide (f ∈ allowed_formats)
  | none => true

def wf_minmax (mn mx : Option Scalar) : Bool :=
  match mn, mx with
  | some a, some b => decide (scalarGt a b = some false)
  | _, _ => true

def wf_lengths (mnl mxl : Option Int) : Bool :=
  match mnl, mxl with
  | some a, some b => decide (a ≤ b)
  | _, _ => true

def wf_enum (en : Option (List Scalar)) : Bool :=
  match en with
  | some l => !l.isEmpty
  | none => true

/-- The serialized `enum` entry (`if field_def.enum:` truthiness). -/
def ser_enum_val (en : Option (List Scalar)) : Option PyVal :=
  match en with
  | some l => if !l.isEmpty then some (.vList (l.map scalarToVal)) else none
  | none => none

def FPropList.isNil : FPropList → Bool
  | .nil => true
  | .cons _ _ _ => false

/-- A dict entry emitted under an `if <truthy>: result[k] = v` guard:
present exactly when the option is `some`. -/
def opt_entry (k : String) (o : Option PyVal) : List (String × PyVal) :=
  match o with
  | some v => [(k, v)]
  | none => []

/-- The `if s:` guard on an optional string attribute (empty strings
are falsy and dropped). -/
def truthy_str (o : Option String) : Option PyVal :=
  match o with
  | some s => if s ≠ "" then some (.vStr s) else none
  | none => none

mutual

/-- `YAMLParser._field_definition_to_dict`.  Falsy attributes are
dropped by the `if field_def.x:` guards: an empty-string pattern,
format or description, an empty enum list, and an empty properties
mapping all disappear from the serialized form; `min`/`max` and
`min_length`/`max_length` use `is not None` guards instead. -/
def field_definition_to_dict : FieldDefinition → PyVal
  | .mk attrs items props =>
    .vDict (
      [("type", .vStr attrs.type), ("required", .vBool attrs.required)] ++
      opt_entry "pattern" (truthy_str attrs.pattern) ++
      opt_entry "format" (truthy_str attrs.format) ++
      opt_entry "min" (attrs.min.map scalarToVal) ++
      opt_entry "max" (attrs.max.map scalarToVal) ++
      opt_entry "min_length" (attrs.min_length.map PyVal.vInt) ++
      opt_entry "max_length" (attrs.max_length.map PyVal.vInt) ++
      opt_entry "description" (truthy_str attrs.description) ++
      opt_entry "enum" (ser_enum_val attrs.enum) ++
      opt_entry "items"
        (match items with
         | .some ifd => some (field_definition_to_dict ifd)
         | .none => none) ++
      opt_entry "properties"
        (match props with
         | .some pl =>
           if pl.isNil then none else some (.vDict (props_to_dict pl))
         | .none => none))

def props_to_dict : FPropList → List (String × PyVal)
  | .nil => []
  | .cons k fd rest => (k, field_definition_to_dict fd) :: props_to_dict rest

end

/-- `YAMLParser.serialize_to_yaml`, up to the final `yaml.dump` text
rendering (the value tree is what `yaml.safe_load` recovers from the
dumped text). -/
def serialize_to_yaml (cs : ContractSchema) : PyVal :=
  .vDict (
    [("contract_version", .vStr cs.contract_version), ("domain", .vStr cs.domain)] ++
    opt_entry "description" (truthy_str cs.description) ++
    [("schema", .vDict (cs.schema.map (fun p => (p.1, field_definition_to_dict p.2))))] ++
    opt_entry "quality_rules"
      (match cs.quality_rules with
       | some qr => if !qr.isEmpty then some (.vDict qr) else none
       | none => none))

/-- Does a change list contain a change of the given kind? -/
def hasKind (l : List Change) (k : String) : Bool :=
  l.any (fun c => c.type = k)

/-- Specification-side statement of "`a` is a proper subset of `b`" for
enum value lists under Python set semantics. -/
def IsProperSubsetS (a b : List Scalar) : Prop :=
  (∀ x ∈ a, ∃ y ∈ b, scalarEq x y = true) ∧
  ¬(∀ x ∈ b, ∃ y ∈ a, scalarEq x y = true)

/-- Specification-side statement of the (amended) pattern-strictness
rule: stricter when a pattern is introduced, or when both patterns are
non-empty and the new one is strictly longer. -/
def PatStricterSpec (po pn : Option String) : Prop :=
  po = none ∨
  (∃ o n, po = some o ∧ pn = some n ∧ o ≠ "" ∧ n ≠ "" ∧ o.length < n.length)

/-- Error count of a validation run (`0` when the run raised). -/
def validation_error_count (r : Option (List ValidationError)) : Nat :=
  match r with
  | some l => l.length
  | none => 0

/-- The `quality_rules` of a parse result; a failed parse reports a
sentinel non-`none` value so `= none` certifies a successful parse with
absent quality rules. -/
def parsed_quality (r : Except ParseErr ContractSchema) :
    Option (List (String × PyVal)) :=
  match r with
  | .ok cs => cs.quality_rules
  | .error _ => some [("error", .vNull)]

mutual

/-- Well-formedness of a field definition, as the pydantic validators
plus the parser's structural checks guarantee for every parsed field,
strengthened by the three serializer-roundtrip preconditions: no
empty-string pattern, no empty enum list, no empty properties
mapping. -/
def wf_fd (rc : String → Bool) : FieldDefinition → Bool
  | .mk attrs items props =>
    decide (attrs.type ∈ allowed_types) &&
    wf_format attrs.format &&
    wf_pattern rc attrs.pattern &&
    wf_minmax attrs.min attrs.max &&
    wf_lengths attrs.min_length attrs.max_length &&
    wf_enum attrs.enum &&
    (if attrs.type = "array" then
       match items with
       | .some _ => true
       | .none => false
     else
       match items with
       | .none => true
       | .some _ => false) &&
    (if attrs.type = "object" then
       match props with
       | .some pl => !pl.isNil
       | .none => false
     else
       match props with
       | .none => true
       | .some _ => false) &&
    wf_items rc items && wf_props rc props

def wf_items (rc : String → Bool) : FItems → Bool
  | .none => true
  | .some fd => wf_fd rc fd

def wf_props (rc : String → Bool) : FProps → Bool
  | .none => true
  | .some pl => wf_plist rc pl

def wf_plist (rc : String → Bool) : FPropList → Bool
  | .nil => true
  | .cons _ fd rest => wf_fd rc fd && wf_plist rc rest

end

mutual

/-- Fuel needed by `parse_req` to traverse the serialized form of a
field definition. -/
def field_cost : FieldDefinition → Nat
  | .mk _ items props => 1 + Nat.max (items_cost items) (props_cost props)

def items_cost : FItems → Nat
  | .none => 0
  | .some fd => field_cost fd

def props_cost : FProps → Nat
  | .none => 0
  | .some pl => plist_cost pl

def plist_cost : FPropList → Nat
  | .nil => 1
  | .cons _ fd rest => 1 + Nat.max (field_cost fd) (plist_cost rest)

end

/-- Fuel needed for a whole schema mapping. -/
def schema_cost : List (String × FieldDefinition) → Nat
  | [] => 0
  | (_, fd) :: rest => Nat.max (field_cost fd) (schema_cost rest)

mutual

/-- The claim's semantic equivalence on field definitions: same type,
required flag and constraint attributes (pattern, format, min, max,
min_length, max_length, enum) and equivalent nested
items/properties; the free-text description is not part of it. -/
def equiv_fd : FieldDefinition → FieldDefinition → Bool
  | .mk a1 i1 p1, .mk a2 i2 p2 =>
    a1.type = a2.type && a1.required = a2.required &&
    a1.pattern = a2.pattern && a1.format = a2.format &&
    a1.min = a2.min && a1.max = a2.max &&
    a1.min_length = a2.min_length && a1.max_length = a2.max_length &&
    a1.enum = a2.enum && equiv_items i1 i2 && equiv_props p1 p2

def equiv_items : FItems → FItems → Bool
  | .none, .none => true
  | .some f1, .some f2 => equiv_fd f1 f2
  | _, _ => false

def equiv_props : FProps → FProps → Bool
  | .none, .none => true
  | .some l1, .some l2 => equiv_plist l1 l2
  | _, _ => false

def equiv_plist : FPropList → FPropList → Bool
  | .nil, .nil => true
  | .cons k1 f1 r1, .cons k2 f2 r2 => k1 = k2 && equiv_fd f1 f2 && equiv_plist r1 r2
  | _, _ => false

end

/-- Field-name-aligned equivalence of two schema mappings. -/
def equiv_fields : List (String × FieldDefinition) →
    List (String × FieldDefinition) → Bool
  | [], [] => true
  | (k1, f1) :: r1, (k2, f2) :: r2 =>
    k1 = k2 && equiv_fd f1 f2 && equiv_fields r1 r2
  | _, _ => false

def wf_schema_fields (rc : String → Bool) :
    List (String × FieldDefinition) → Bool
  | [] => true
  | (_, fd) :: rest => wf_fd rc fd && wf_schema_fields rc rest

/-- Well-formedness of a whole contract schema for the round-trip
statement. -/
def wf_contract (rc : String → Bool) (cs : ContractSchema) : Bool :=
  version_ok cs.contract_version && !cs.schema.isEmpty &&
  wf_schema_fields rc cs.schema

/-! Concrete instances used by the witnesses and counterexamples. -/

def rc_true : String → Bool := fun _ => true

def rmatch_true : String → String → Bool := fun _ _ => true

def base_attrs : FieldAttrs :=
  { type := "string", required := true, pattern := none, format := none,
    min := none, max := none, min_length := none, max_length := none,
    description := none, enum := none }

/-- A plain required string field. -/
def fd_plain : FieldDefinition := .mk base_attrs .none .none

/-- A plain optional string field. -/
def fd_optional : FieldDefinition := .mk { base_attrs with required := false } .none .none

def cs_one : ContractSchema :=
  { contract_version := "1.0", domain := "default", description := none,
    schema := [("a", fd_plain)], quality_rules := none }

def cs_no_fields : ContractSchema :=
  { contract_version := "1.0", domain := "default", description := none,
    schema := [], quality_rules := none }

def cs_two : ContractSchema :=
  { contract_version := "1.0", domain := "default", description := none,
    schema := [("a", fd_plain), ("b", fd_optional)], quality_rules := none }

/-- The report `detect_changes` produces for identical schemas. -/
def zero_report : ChangeReport :=
  { breaking_changes := [], non_breaking_changes := [], risk_score := 0,
    risk_level := "LOW", total_changes := 0, summary := "No changes detected" }

def report_of (o : Option ChangeReport) : ChangeReport :=
  match o with
  | some r => r
  | none => zero_report

def fd_pat_empty : FieldDefinition :=
  .mk { base_attrs with pattern := some "" } .none .none

def fd_pat_ab : FieldDefinition :=
  .mk { base_attrs with pattern := some "ab" } .none .none

def pattern_case : List Change × List Change :=
  match analyze_field_spec "f" fd_pat_empty fd_pat_ab with
  | some p => p
  | none => ([], [])

def fd_enum_abc : FieldDefinition :=
  .mk { base_attrs with enum := some [.sStr "A", .sStr "B", .sStr "C"] } .none .none

def fd_enum_ab : FieldDefinition :=
  .mk { base_attrs with enum := some [.sStr "A", .sStr "B"] } .none .none

def enum_case : List Change × List Change :=
  match analyze_field_spec "f" fd_enum_abc fd_enum_ab with
  | some p => p
  | none => ([], [])

def init_summary : ChangeSummary :=
  { breaking_changes := [], non_breaking_changes := [], risk_score := 0,
    risk_level := "LOW", total_changes := 0, summary := "", rollback_info := none }

def contract_c1 : Contract :=
  { id := "c1", version := "1.2.3", yaml_content := "current-yaml" }

def version_row_100 : ContractVersion :=
  { contract_id := "c1", version := "1.0.0", yaml_content := "target-yaml",
    change_type := "INITIAL", change_summary := init_summary, created_by := "alice" }

def db0 : DbState := { contracts := [contract_c1], versions := [version_row_100] }

def ctx_eleven : SchemaValidator :=
  { schema := (List.range 11).map (fun i => ("f" ++ toString i, fd_plain)),
    rc := rc_true, rmatch := rmatch_true, fmatch := rmatch_true }

def ctx_single : SchemaValidator :=
  { schema := [("ok", fd_plain)], rc := rc_true,
    rmatch := rmatch_true, fmatch := rmatch_true }

def data_ok : List (String × PyVal) := [("ok", .vStr "x")]

def data_null_f : List (String × PyVal) := [("f", .vNull)]

def fd_obj_empty_props : FieldDefinition :=
  .mk { base_attrs with type := "object" } .none (.some .nil)

/-- A contract whose single field is an object with an empty
`properties` mapping — producible by the parser, fatal to re-parse. -/
def cs_empty_props : ContractSchema :=
  { contract_version := "1.0", domain := "default", description := none,
    schema := [("f", fd_obj_empty_props)], quality_rules := none }

def doc_empty_props : PyVal :=
  .vDict [("contract_version", .vStr "1.0"),
          ("schema", .vDict [("f", .vDict [("type", .vStr "object"),
                                           ("properties", .vDict [])])])]

def fd_round_item : FieldDefinition :=
  .mk { base_attrs with
        type := "integer"
        min := some (.sInt 0)
        max := some (.sInt 10) } .none .none

def fd_round_arr : FieldDefinition :=
  .mk { base_attrs with type := "array" } (.some fd_round_item) .none

def fd_round_obj : FieldDefinition :=
  .mk { base_attrs with type := "object" } .none (.some (.cons "p" fd_plain .nil))

def fd_round_str : FieldDefinition :=
  .mk { base_attrs with
        required := false
        pattern := some "^x$"
        format := some "email"
        min_length := some 1
        max_length := some 5
        enum := some [.sStr "xa"] } .none .none

def cs_round : ContractSchema :=
  { contract_version := "2.1", domain := "d", description := some "",
    schema := [("s", fd_round_str), ("ar", fd_round_arr), ("ob", fd_round_obj)],
    quality_rules := some [("freshness", .vDict [("max_latency_hours", .vInt 24)])] }

def doc_bad_quality : PyVal :=
  .vDict [("contract_version", .vStr "1.0"),
          ("schema", .vDict [("a", .vDict [("type", .vStr "string")])]),
          ("quality_rules", .vInt 5)]

def pattern_case2 : List Change × List Change :=
  match analyze_field_spec "f" fd_plain fd_pat_ab with
  | some p => p
  | none => ([], [])

def schema_of (r : Except ParseErr ContractSchema) :
    List (String × FieldDefinition) :=
  match r with
  | .ok cs => cs.schema
  | .error _ => []

/-! Helper lemmas. -/

theorem scalarGt_self (m : Scalar) : scalarGt m m = some false := by
  cases m with
  | sInt n => simp [scalarGt, Scalar.numVal]
  | sStr s => simp [scalarGt, decide_eq_false (String.lt_irrefl s)]
  | sBool b => cases b <;> simp [scalarGt, Scalar.numVal]

theorem is_range_narrower_self (fd : FieldDefinition) :
    is_range_narrower fd fd = some false := by
  unfold is_range_narrower
  cases hmn : fd.min <;> cases hmx : fd.max <;>
    simp [hmn, hmx, scalarGt_self, scalarLt, Option.bind]

theorem is_range_wider_self (fd : FieldDefinition) :
    is_range_wider fd fd = some false := by
  unfold is_range_wider
  cases hmn : fd.min <;> cases hmx : fd.max <;>
    simp [hmn, hmx, scalarGt_self, scalarLt, Option.bind]

theorem analyze_field_spec_self (name : String) (fd : FieldDefinition) :
    analyze_field_spec name fd fd = some ([], []) := by
  unfold analyze_field_spec
  simp [is_range_narrower_self, is_range_wider_self, Option.bind,
    type_change_list, required_change_lists, pattern_change_lists,
    format_change_list, enum_change_lists]

theorem analyze_common_self (full : List (String × FieldDefinition)) :
    ∀ l, analyze_common full l full = some ([], []) := by
  intro l
  induction l with
  | nil => rfl
  | cons p rest ih =>
    obtain ⟨k, fd⟩ := p
    unfold analyze_common
    cases h : lookupFD full k with
    | none => simpa [h] using ih
    | some fdNew => simp [h, analyze_field_spec_self, ih, Option.bind]

theorem containsFD_of_mem (l : List (String × FieldDefinition))
    (p : String × FieldDefinition) (hp : p ∈ l) : containsFD l p.1 = true := by
  induction l with
  | nil => cases hp
  | cons q rest ih =>
    unfold containsFD lookupFD
    by_cases hk : q.1 = p.1
    · simp [hk]
    · rcases List.mem_cons.mp hp with h | h
      · subst h; simp at hk
      · simpa [hk, containsFD] using ih h

/-- C2: for every pair of schemas on which `detect_changes` returns, the
report's `risk_score` is `min(100, 15·|breaking| + 3·|non_breaking|)`
and `risk_level` follows the ≤20 / ≤50 / ≤80 thresholds. -/
theorem C2_risk_score_formula (old_schema new_schema : ContractSchema)
    (r : ChangeReport) (h : detect_changes old_schema new_schema = some r) :
    r.risk_score =
      Nat.min (15 * r.breaking_changes.length +
        3 * r.non_breaking_changes.length) 100 ∧
    (r.risk_score ≤ 20 → r.risk_level = "LOW") ∧
    (20 < r.risk_score → r.risk_score ≤ 50 → r.risk_level = "MEDIUM") ∧
    (50 < r.risk_score → r.risk_score ≤ 80 → r.risk_level = "HIGH") ∧
    (80 < r.risk_score → r.risk_level = "CRITICAL") := by
  unfold detect_changes at h
  cases han : analyze_fields old_schema.schema new_schema.schema with
  | none => rw [han] at h; simp [Option.bind] at h
  | some p =>
    rw [han] at h
    simp only [bind, Option.bind, pure, Option.some.injEq] at h
    subst h
    refine ⟨?_, ?_, ?_, ?_, ?_⟩ <;>
      dsimp only <;>
      simp only [get_risk_level, calculate_risk_score] <;>
      intros <;>
      first
        | (split_ifs <;> first | rfl | omega)
        | omega
        | (congr 1; ring)

/-- Witness for C2 at a concrete pair of schemas. -/
theorem C2_risk_score_formula_witness :
    zero_report.risk_score =
      Nat.min (15 * zero_report.breaking_changes.length +
        3 * zero_report.non_breaking_changes.length) 100 ∧
    (zero_report.risk_score ≤ 20 → zero_report.risk_level = "LOW") ∧
    (20 < zero_report.risk_score → zero_report.risk_score ≤ 50 →
      zero_report.risk_level = "MEDIUM") ∧
    (50 < zero_report.risk_score → zero_report.risk_score ≤ 80 →
      zero_report.risk_level = "HIGH") ∧
    (80 < zero_report.risk_score → zero_report.risk_level = "CRITICAL") :=
  C2_risk_score_formula cs_one cs_one zero_report (by rfl)

/-- C1: for every report produced by `detect_changes` and every current
version string that parses as `major.minor[.patch]`,
`calculate_next_version` bumps major (resetting minor and patch) when
there is a breaking change, else minor (resetting patch) when there is
a non-breaking change, else patch. -/
theorem C1_version_bump (old_schema new_schema : ContractSchema)
    (r : ChangeReport) (_hr : detect_changes old_schema new_schema = some r)
    (cur : String) (ma mi pa : Int)
    (hv : parse_version cur = some (ma, mi, pa)) :
    calculate_next_version cur r =
      some (if r.breaking_changes.length ≠ 0 then format_version (ma + 1) 0 0
        else if r.non_breaking_changes.length ≠ 0 then format_version ma (mi + 1) 0
        else format_version ma mi (pa + 1)) := by
  unfold calculate_next_version
  rw [hv]
  by_cases hb : r.breaking_changes.length = 0
  · by_cases hn : r.non_breaking_changes.length = 0
    · simp [bind, Option.bind, ChangeReport.has_breaking_changes, hb, hn]
    · simp [bind, Option.bind, ChangeReport.has_breaking_changes, hb, hn,
        Nat.pos_of_ne_zero]
  · simp [bind, Option.bind, ChangeReport.has_breaking_changes, hb]

/-- Witness for C1: the three spec examples — breaking on "1.2.3" gives
"2.0.0", non-breaking only gives "1.3.0", no changes gives "1.2.4". -/
theorem C1_version_bump_witness :
    calculate_next_version "1.2.3" (report_of (detect_changes cs_one cs_no_fields)) =
      some "2.0.0" ∧
    calculate_next_version "1.2.3" (report_of (detect_changes cs_one cs_two)) =
      some "1.3.0" ∧
    calculate_next_version "1.2.3" (report_of (detect_changes cs_one cs_one)) =
      some "1.2.4" :=
  ⟨(C1_version_bump cs_one cs_no_fields _ (by rfl) "1.2.3" 1 2 3 (by rfl)).trans
      (by rfl),
   (C1_version_bump cs_one cs_two _ (by rfl) "1.2.3" 1 2 3 (by rfl)).trans
      (by rfl),
   (C1_version_bump cs_one cs_one _ (by rfl) "1.2.3" 1 2 3 (by rfl)).trans
      (by rfl)⟩

/-- C3: diffing a schema against itself yields the empty report: no
breaking or non-breaking changes, zero total, risk score 0, level
LOW. -/
theorem C3_detect_changes_self (S : ContractSchema) :
    detect_changes S S = some zero_report := by
  have hflt : ∀ (fields : List (String × FieldDefinition))
      (g : String × FieldDefinition → Option Change),
      (fields.filterMap (fun p =>
        if containsFD fields p.1 then Option.none else g p)) = [] := by
    intro fields g
    refine List.filterMap_eq_nil_iff.mpr (fun p hp => ?_)
    simp [containsFD_of_mem fields p hp]
  have hfields : analyze_fields S.schema S.schema = some ([], []) := by
    unfold analyze_fields
    rw [analyze_common_self]
    simp only [bind, Option.bind, pure, hflt]
    rfl
  unfold detect_changes
  rw [hfields]
  simp [bind, Option.bind, pure, calculate_risk_score, get_risk_level,
    generate_summary, zero_report]

theorem step_of_result_ne_missing (o : Option (List ValidationError))
    (e : ValidationError) : step_of_result o ≠ StepResult.missingErr e := by
  cases o <;> simp [step_of_result]

/-- C10: a required field present with a null value is not reported as
`REQUIRED_FIELD_MISSING` — the null proceeds to the type check, which
fails with `TYPE_MISMATCH` for every field type; the missing-field
error arises exactly when the key is absent. -/
theorem C10_null_required_field (ctx : SchemaValidator) (name : String)
    (fd : FieldDefinition) (data : List (String × PyVal))
    (hreq : fd.required = true) :
    (pyLookup data name = some PyVal.vNull →
      field_step ctx name fd data = StepResult.typeErr
        { field := name, error_type := "TYPE_MISMATCH",
          message := "Expected " ++ fd.type ++ ", got " ++ typeName PyVal.vNull,
          value := some ((pyStrV PyVal.vNull).take 100),
          expected := some fd.type }) ∧
    ((∃ e, field_step ctx name fd data = StepResult.missingErr e) ↔
      pyLookup data name = none) := by
  have hnull : ∀ t, type_check_ok t PyVal.vNull = false := by
    intro t
    unfold type_check_ok
    split_ifs <;> rfl
  constructor
  · intro hl
    unfold field_step
    simp only [pyHasKey, hl, Option.isSome_some, Bool.not_true, Bool.and_false,
      if_false, hreq]
    unfold validate_type
    simp [hnull]
  · constructor
    · rintro ⟨e, he⟩
      cases hk : pyLookup data name with
      | none => rfl
      | some v =>
        exfalso
        unfold field_step at he
        simp only [pyHasKey, hk, Option.isSome_some, Bool.not_true,
          Bool.and_false, if_false] at he
        split at he
        · next h => exact Bool.false_ne_true h
        · split at he
          · simp at he
          · split at he
            · simp at he
            · exact step_of_result_ne_missing _ _ he
    · intro hn
      refine ⟨required_missing_error name, ?_⟩
      unfold field_step
      simp [pyHasKey, hn, hreq]

/-- Witness for C10 at a concrete schema and record. -/
theorem C10_null_required_field_witness :
    field_step ctx_single "f" fd_plain data_null_f = StepResult.typeErr
      { field := "f", error_type := "TYPE_MISMATCH",
        message := "Expected " ++ fd_plain.type ++ ", got " ++ typeName PyVal.vNull,
        value := some ((pyStrV PyVal.vNull).take 100),
        expected := some fd_plain.type } :=
  (C10_null_required_field ctx_single "f" fd_plain data_null_f (by rfl)).1 (by rfl)

/-- C6: for every contract and existing target version, rollback sets
the new version to `major+1 .0.0` computed from the *current* version
(ignoring the target's own number), copies the target's stored
`yaml_content` verbatim into the live contract, tags the new record
`ROLLBACK`, and stores a constant change summary (empty change lists,
risk 0, LOW) built only from the version strings and the reason — the
change detector is never consulted on the restored content. -/
theorem C6_rollback (st : DbState) (cid tv user reason : String)
    (c : Contract) (target : ContractVersion) (major : Int)
    (hc : st.contracts.find? (fun x => x.id = cid) = some c)
    (ht : get_version_by_number st cid tv = some target)
    (hm : pyInt ((py_split_dot c.version).headD "") = some major) :
    ∃ st2 c2 v2,
      rollback_to_version st cid tv user reason = .ok (st2, c2, v2) ∧
      c2.version = toString (major + 1) ++ ".0.0" ∧
      c2.yaml_content = target.yaml_content ∧
      v2.version = toString (major + 1) ++ ".0.0" ∧
      v2.yaml_content = target.yaml_content ∧
      v2.change_type = "ROLLBACK" ∧
      v2.change_summary =
        { breaking_changes := [], non_breaking_changes := [], risk_score := 0,
          risk_level := "LOW", total_changes := 0,
          summary := "Rolled back from v" ++ c.version ++ " to v" ++ tv,
          rollback_info := some (c.version, tv, reason) } ∧
      st2.versions = st.versions ++ [v2] := by
  have hrun : rollback_to_version st cid tv user reason =
      Except.ok
        (⟨st.contracts.map (fun x => if x.id = cid then
            ⟨c.id, toString (major + 1) ++ ".0.0", target.yaml_content⟩ else x),
          st.versions ++ [⟨cid, toString (major + 1) ++ ".0.0",
            target.yaml_content, "ROLLBACK",
            ⟨[], [], 0, "LOW", 0,
              "Rolled back from v" ++ c.version ++ " to v" ++ tv,
              some (c.version, tv, reason)⟩, user⟩]⟩,
         ⟨c.id, toString (major + 1) ++ ".0.0", target.yaml_content⟩,
         ⟨cid, toString (major + 1) ++ ".0.0", target.yaml_content, "ROLLBACK",
           ⟨[], [], 0, "LOW", 0,
             "Rolled back from v" ++ c.version ++ " to v" ++ tv,
             some (c.version, tv, reason)⟩, user⟩) := by
    unfold rollback_to_version
    rw [hc, ht]
    dsimp only [bind, Except.bind]
    rw [hm]
    rfl
  exact ⟨_, _, _, hrun, rfl, rfl, rfl, rfl, rfl, rfl, rfl⟩

/-- Witness for C6 at a concrete database state. -/
theorem C6_rollback_witness :
    ∃ st2 c2 v2,
      rollback_to_version db0 "c1" "1.0.0" "bob" "why" = .ok (st2, c2, v2) ∧
      c2.version = toString ((1 : Int) + 1) ++ ".0.0" ∧
      c2.yaml_content = version_row_100.yaml_content ∧
      v2.version = toString ((1 : Int) + 1) ++ ".0.0" ∧
      v2.yaml_content = version_row_100.yaml_content ∧
      v2.change_type = "ROLLBACK" ∧
      v2.change_summary =
        { breaking_changes := [], non_breaking_changes := [], risk_score := 0,
          risk_level := "LOW", total_changes := 0,
          summary := "Rolled back from v" ++ contract_c1.version ++ " to v" ++ "1.0.0",
          rollback_info := some (contract_c1.version, "1.0.0", "why") } ∧
      st2.versions = db0.versions ++ [v2] :=
  C6_rollback db0 "c1" "1.0.0" "bob" "why" contract_c1 version_row_100 1
    (by rfl) (by rfl) (by rfl)

/-- C7 counterexample: a schema with eleven required fields validated
against the empty record yields eleven `REQUIRED_FIELD_MISSING` errors
— more than the ten the claim allows — because the missing-field
`continue` path never consults the 10-error cap. -/
theorem C7_counterexample :
    10 < validation_error_count (validate ctx_eleven []) := by
  have h : validation_error_count (validate ctx_eleven []) = 11 := by rfl
  rw [h]
  decide

/-- C7 amended: the 10-error cap is checked only at the end of a field
iteration that reached the type-specific checks; when every schema
field either is skipped or reaches those checks contributing at most
one error (no missing-required or type-mismatch `continue` paths, no
multi-error field), the validator returns at most 10 errors. -/
theorem C7_amended_cap (ctx : SchemaValidator) (data : List (String × PyVal))
    (h : ∀ p ∈ ctx.schema,
      field_step ctx p.1 p.2 data = StepResult.skip ∨
      ∃ es, field_step ctx p.1 p.2 data = StepResult.checked es ∧ es.length ≤ 1)
    (l : List ValidationError) (hv : validate ctx data = some l) :
    l.length ≤ 10 := by
  have main : ∀ (fields : List (String × FieldDefinition))
      (acc : List ValidationError),
      (∀ p ∈ fields,
        field_step ctx p.1 p.2 data = StepResult.skip ∨
        ∃ es, field_step ctx p.1 p.2 data = StepResult.checked es ∧ es.length ≤ 1) →
      acc.length ≤ 9 →
      ∀ l2, validate_go ctx fields data acc = some l2 → l2.length ≤ 10 := by
    intro fields
    induction fields with
    | nil =>
      intro acc _ hacc l2 hl2
      unfold validate_go at hl2
      cases hl2
      omega
    | cons p rest ih =>
      intro acc hall hacc l2 hl2
      obtain ⟨fname, fd⟩ := p
      have hp := hall ⟨fname, fd⟩ (List.mem_cons_self _ _)
      unfold validate_go at hl2
      rcases hp with hskip | ⟨es, hch, hes⟩
      · rw [hskip] at hl2
        exact ih acc (fun q hq => hall q (List.mem_cons_of_mem _ hq)) hacc l2 hl2
      · rw [hch] at hl2
        simp only [List.length_append] at hl2 ⊢
        by_cases hcap : 10 ≤ acc.length + es.length
        · rw [if_pos (by simpa using hcap)] at hl2
          cases hl2
          simp only [List.length_append]
          omega
        · rw [if_neg (by simpa using hcap)] at hl2
          exact ih (acc ++ es) (fun q hq => hall q (List.mem_cons_of_mem _ hq))
            (by simp only [List.length_append]; omega) l2 hl2
  exact main ctx.schema [] h (by simp) l hv

/-- Witness for C7's amended cap at a concrete schema and record. -/
theorem C7_amended_cap_witness :
    validation_error_count (validate ctx_single data_ok) ≤ 10 := by
  have h := C7_amended_cap ctx_single data_ok
    (by
      intro p hp
      simp only [ctx_single, List.mem_singleton] at hp
      subst hp
      exact Or.inr ⟨[], by rfl, by decide⟩)
    [] (by rfl)
  exact h

theorem hasKind_append (l1 l2 : List Change) (k : String) :
    hasKind (l1 ++ l2) k = (hasKind l1 k || hasKind l2 k) := by
  simp [hasKind, List.any_append]

theorem hasKind_false_of_uniform (l : List Change) (t k : String)
    (hl : ∀ c ∈ l, c.type = t) (hk : t ≠ k) : hasKind l k = false := by
  unfold hasKind
  rw [List.any_eq_false]
  intro c hc
  simp [hl c hc, hk]

theorem type_change_list_kinds (f : String) (o n : FieldDefinition) :
    ∀ c ∈ type_change_list f o n, c.type = "TYPE_CHANGED" := by
  intro c hc
  unfold type_change_list at hc
  split at hc
  · simp at hc; subst hc; rfl
  · simp at hc

theorem required_change_lists_kinds1 (f : String) (o n : FieldDefinition) :
    ∀ c ∈ (required_change_lists f o n).1, c.type = "FIELD_MADE_REQUIRED" := by
  intro c hc
  unfold required_change_lists at hc
  dsimp only at hc
  split at hc
  · simp at hc; subst hc; rfl
  · simp at hc

theorem required_change_lists_kinds2 (f : String) (o n : FieldDefinition) :
    ∀ c ∈ (required_change_lists f o n).2, c.type = "FIELD_MADE_OPTIONAL" := by
  intro c hc
  unfold required_change_lists at hc
  dsimp only at hc
  split at hc
  · simp at hc; subst hc; rfl
  · simp at hc

theorem pattern_change_lists_kinds1 (f : String) (o n : FieldDefinition) :
    ∀ c ∈ (pattern_change_lists f o n).1, c.type = "PATTERN_STRICTER" := by
  intro c hc
  unfold pattern_change_lists at hc
  split at hc
  · split at hc
    · simp at hc; subst hc; rfl
    · simp at hc
  · simp at hc

theorem pattern_change_lists_kinds2 (f : String) (o n : FieldDefinition) :
    ∀ c ∈ (pattern_change_lists f o n).2, c.type = "PATTERN_RELAXED" := by
  intro c hc
  unfold pattern_change_lists at hc
  split at hc
  · split at hc
    · simp at hc
    · simp at hc; subst hc; rfl
  · simp at hc

theorem format_change_list_kinds (f : String) (o n : FieldDefinition) :
    ∀ c ∈ format_change_list f o n, c.type = "FORMAT_CHANGED" := by
  intro c hc
  unfold format_change_list at hc
  split at hc
  · simp at hc; subst hc; rfl
  · simp at hc

theorem enum_change_lists_kinds1 (f : String) (o n : FieldDefinition) :
    ∀ c ∈ (enum_change_lists f o n).1, c.type = "ENUM_VALUES_REMOVED" := by
  intro c hc
  unfold enum_change_lists at hc
  split at hc
  · split at hc
    · simp at hc
    · split at hc
      · simp at hc; subst hc; rfl
      · split at hc
        · simp at hc
        · simp at hc
  · simp at hc

theorem enum_change_lists_kinds2 (f : String) (o n : FieldDefinition) :
    ∀ c ∈ (enum_change_lists f o n).2, c.type = "ENUM_VALUES_ADDED" := by
  intro c hc
  unfold enum_change_lists at hc
  split at hc
  · split at hc
    · simp at hc
    · split at hc
      · simp at hc
      · split at hc
        · simp at hc; subst hc; rfl
        · simp at hc
  · simp at hc

/-- Inversion of a successful `analyze_field_spec` run into its six
parts, with the range part abstracted by its kind. -/
theorem analyze_field_spec_inv (name : String) (o n : FieldDefinition)
    (b nb : List Change) (h : analyze_field_spec name o n = some (b, nb)) :
    ∃ rb rnb : List Change,
      (∀ c ∈ rb, c.type = "CONSTRAINT_TIGHTENED") ∧
      (∀ c ∈ rnb, c.type = "CONSTRAINT_RELAXED") ∧
      b = type_change_list name o n ++ (required_change_lists name o n).1 ++
          (pattern_change_lists name o n).1 ++ rb ++
          format_change_list name o n ++ (enum_change_lists name o n).1 ∧
      nb = (required_change_lists name o n).2 ++
          (pattern_change_lists name o n).2 ++ rnb ++
          (enum_change_lists name o n).2 := by
  unfold analyze_field_spec at h
  cases hnar : is_range_narrower o n with
  | none => rw [hnar] at h; simp [bind, Option.bind] at h
  | some nv =>
    rw [hnar] at h
    cases nv with
    | true =>
      simp only [bind, Option.bind, pure, if_true, Option.some.injEq,
        Prod.mk.injEq] at h
      exact ⟨[tightened_change name o n], [],
        by intro c hc; simp at hc; subst hc; rfl,
        by intro c hc; simp at hc,
        h.1.symm, h.2.symm⟩
    | false =>
      cases hwid : is_range_wider o n with
      | none => rw [hwid] at h; simp [bind, Option.bind] at h
      | some wv =>
        rw [hwid] at h
        cases wv with
        | true =>
          simp only [bind, Option.bind, pure, if_true, if_false,
            Bool.false_eq_true, Option.some.injEq, Prod.mk.injEq] at h
          exact ⟨[], [relaxed_change name o n],
            by intro c hc; simp at hc,
            by intro c hc; simp at hc; subst hc; rfl,
            by rw [← h.1],
            by rw [← h.2]⟩
        | false =>
          simp only [bind, Option.bind, pure, if_false,
            Bool.false_eq_true, Option.some.injEq, Prod.mk.injEq] at h
          exact ⟨[], [],
            by intro c hc; simp at hc,
            by intro c hc; simp at hc,
            by rw [← h.1],
            by rw [← h.2]⟩

theorem is_pattern_stricter_iff (po pn : Option String) (hd : po ≠ pn) :
    is_pattern_stricter po pn = true ↔ PatStricterSpec po pn := by
  cases po with
  | none =>
    cases pn with
    | none => exact absurd rfl hd
    | some s => simp [is_pattern_stricter, PatStricterSpec]
  | some o' =>
    cases pn with
    | none => simp [is_pattern_stricter, PatStricterSpec]
    | some n' =>
      unfold is_pattern_stricter PatStricterSpec
      have hne : o' ≠ n' := by
        intro hcon
        exact hd (by rw [hcon])
      simp only [if_neg hne, Option.some.injEq, reduceCtorEq, false_or]
      by_cases he : n' ≠ "" ∧ o' ≠ ""
      · rw [if_pos (by simp [he.1, he.2])]
        constructor
        · intro hlen
          exact ⟨o', n', rfl, rfl, he.2, he.1, by simpa using hlen⟩
        · rintro ⟨a, b2, ha, hb2, h3, h4, h5⟩
          cases ha; cases hb2
          simpa using h5
      · rw [if_neg (by
          intro hcon
          simp only [Bool.and_eq_true, decide_eq_true_eq] at hcon
          exact he hcon)]
        constructor
        · intro hfalse; exact absurd hfalse (by simp)
        · rintro ⟨a, b2, ha, hb2, h3, h4, h5⟩
          cases ha; cases hb2
          exact absurd ⟨h4, h3⟩ he

theorem hasKind_pattern1 (f : String) (o n : FieldDefinition) :
    hasKind (pattern_change_lists f o n).1 "PATTERN_STRICTER" =
      (decide (o.pattern ≠ n.pattern) &&
        is_pattern_stricter o.pattern n.pattern) := by
  unfold pattern_change_lists
  split_ifs <;> simp_all [hasKind]

theorem hasKind_pattern2 (f : String) (o n : FieldDefinition) :
    hasKind (pattern_change_lists f o n).2 "PATTERN_RELAXED" =
      (decide (o.pattern ≠ n.pattern) &&
        !is_pattern_stricter o.pattern n.pattern) := by
  unfold pattern_change_lists
  split_ifs <;> simp_all [hasKind]

/-- C4 (amended): for a field present in both schemas with differing
patterns, the change is classified breaking `PATTERN_STRICTER` exactly
when the pattern was introduced (old `None`) or both patterns are
*non-empty* strings and the new one is strictly longer — an
empty-string pattern falls through the CPython truthiness guard and is
classified relaxed — and non-breaking `PATTERN_RELAXED` in every other
case. -/
theorem C4_pattern_classification (name : String) (o n : FieldDefinition)
    (b nb : List Change) (h : analyze_field_spec name o n = some (b, nb))
    (hd : o.pattern ≠ n.pattern) :
    (hasKind b "PATTERN_STRICTER" = true ↔ PatStricterSpec o.pattern n.pattern) ∧
    (hasKind nb "PATTERN_RELAXED" = true ↔ ¬PatStricterSpec o.pattern n.pattern) := by
  obtain ⟨rb, rnb, hrb, hrnb, hb, hnb⟩ := analyze_field_spec_inv name o n b nb h
  subst hb; subst hnb
  have hiff := is_pattern_stricter_iff o.pattern n.pattern hd
  constructor
  · rw [hasKind_append, hasKind_append, hasKind_append, hasKind_append,
      hasKind_append,
      hasKind_false_of_uniform _ _ _ (type_change_list_kinds name o n) (by decide),
      hasKind_false_of_uniform _ _ _ (required_change_lists_kinds1 name o n) (by decide),
      hasKind_false_of_uniform _ _ _ hrb (by decide),
      hasKind_false_of_uniform _ _ _ (format_change_list_kinds name o n) (by decide),
      hasKind_false_of_uniform _ _ _ (enum_change_lists_kinds1 name o n) (by decide),
      hasKind_pattern1]
    simp only [Bool.false_or, Bool.or_false, Bool.and_eq_true,
      decide_eq_true_eq]
    constructor
    · intro hx; exact hiff.mp hx.2
    · intro hx; exact ⟨hd, hiff.mpr hx⟩
  · rw [hasKind_append, hasKind_append, hasKind_append,
      hasKind_false_of_uniform _ _ _ (required_change_lists_kinds2 name o n) (by decide),
      hasKind_false_of_uniform _ _ _ hrnb (by decide),
      hasKind_false_of_uniform _ _ _ (enum_change_lists_kinds2 name o n) (by decide),
      hasKind_pattern2]
    simp only [Bool.false_or, Bool.or_false, Bool.and_eq_true,
      decide_eq_true_eq, Bool.not_eq_true']
    rw [← hiff]
    constructor
    · intro hx
      simp [hx.2]
    · intro hx
      exact ⟨hd, by simpa using hx⟩

/-- C4 counterexample: with old pattern `""` (set, length 0) and new
pattern `"ab"` (set, strictly longer), the claim demands breaking
`PATTERN_STRICTER`, but the code records non-breaking
`PATTERN_RELAXED`. -/
theorem C4_counterexample :
    fd_pat_empty.pattern = some "" ∧
    fd_pat_ab.pattern = some "ab" ∧
    ("" : String).length < ("ab" : String).length ∧
    hasKind pattern_case.1 "PATTERN_STRICTER" = false ∧
    hasKind pattern_case.2 "PATTERN_RELAXED" = true :=
  ⟨rfl, rfl, by decide, by rfl, by rfl⟩

/-- Witness for the amended C4: introducing a pattern where none
existed is recorded as breaking `PATTERN_STRICTER`. -/
theorem C4_pattern_classification_witness :
    hasKind pattern_case2.1 "PATTERN_STRICTER" = true :=
  (C4_pattern_classification "f" fd_plain fd_pat_ab pattern_case2.1
    pattern_case2.2 (by rfl) (by decide)).1.mpr (Or.inl rfl)

theorem enumProperSubset_asymm (a b : List Scalar)
    (h : enumProperSubset a b = true) : enumProperSubset b a = false := by
  unfold enumProperSubset at *
  simp only [Bool.and_eq_true, Bool.not_eq_true'] at h
  simp [h.2]

theorem enumProperSubset_iff_spec (a b : List Scalar) :
    enumProperSubset a b = true ↔ IsProperSubsetS a b := by
  unfold enumProperSubset enumSubset IsProperSubsetS
  simp [List.all_eq_true, List.any_eq_true]

theorem hasKind_enum_removed (f : String) (o n : FieldDefinition) :
    hasKind (enum_change_lists f o n).1 "ENUM_VALUES_REMOVED" = true ↔
      (o.enum ≠ n.enum ∧ ∃ nl, n.enum = some nl ∧
        enumProperSubset nl (o.enum.getD []) = true) := by
  unfold enum_change_lists
  by_cases hd : o.enum ≠ n.enum
  · rw [if_pos hd]
    cases hne : n.enum with
    | none => simp [hasKind, hd, hne]
    | some nl =>
      dsimp only
      have hd2 : o.enum ≠ some nl := by rw [← hne]; exact hd
      by_cases h1 : enumProperSubset nl (o.enum.getD []) = true
      · rw [if_pos h1]
        simp [hasKind, hd2, hne, h1]
      · rw [if_neg h1]
        by_cases h2 : enumProperSubset (o.enum.getD []) nl = true
        · rw [if_pos h2]; simp [hasKind, hd2, hne, h1]
        · rw [if_neg h2]; simp [hasKind, hd2, hne, h1]
  · rw [if_neg hd]
    simp [hasKind, hd]

theorem hasKind_enum_added (f : String) (o n : FieldDefinition) :
    hasKind (enum_change_lists f o n).2 "ENUM_VALUES_ADDED" = true ↔
      (o.enum ≠ n.enum ∧ ∃ nl, n.enum = some nl ∧
        enumProperSubset (o.enum.getD []) nl = true) := by
  unfold enum_change_lists
  by_cases hd : o.enum ≠ n.enum
  · rw [if_pos hd]
    cases hne : n.enum with
    | none => simp [hasKind, hd, hne]
    | some nl =>
      dsimp only
      have hd2 : o.enum ≠ some nl := by rw [← hne]; exact hd
      by_cases h1 : enumProperSubset nl (o.enum.getD []) = true
      · rw [if_pos h1]
        simp only [hasKind, List.any_nil, Bool.false_eq_true, false_iff,
          not_and, hne]
        intro _
        rintro ⟨nl2, hnl2, hsup⟩
        cases hnl2
        rw [enumProperSubset_asymm _ _ hsup] at h1
        exact absurd h1 (by simp)
      · rw [if_neg h1]
        by_cases h2 : enumProperSubset (o.enum.getD []) nl = true
        · rw [if_pos h2]; simp [hasKind, hd2, hne, h2]
        · rw [if_neg h2]; simp [hasKind, hd2, hne, h2]
  · rw [if_neg hd]
    simp [hasKind, hd]

/-- C5: for a field present in both schemas with differing enums, the
change is recorded as breaking `ENUM_VALUES_REMOVED` exactly when the
new enum is a proper subset (under Python set semantics) of the old
enum value set (a `None` or empty old enum counting as the empty set),
as non-breaking `ENUM_VALUES_ADDED` exactly when it is a proper
superset, and no enum change is recorded otherwise — including
disjoint or overlapping unequal sets and removal of the enum
entirely. -/
theorem C5_enum_classification (name : String) (o n : FieldDefinition)
    (b nb : List Change) (h : analyze_field_spec name o n = some (b, nb))
    (hd : o.enum ≠ n.enum) :
    (hasKind b "ENUM_VALUES_REMOVED" = true ↔
      ∃ nl, n.enum = some nl ∧ IsProperSubsetS nl (o.enum.getD [])) ∧
    (hasKind nb "ENUM_VALUES_ADDED" = true ↔
      ∃ nl, n.enum = some nl ∧ IsProperSubsetS (o.enum.getD []) nl) := by
  obtain ⟨rb, rnb, hrb, hrnb, hb, hnb⟩ := analyze_field_spec_inv name o n b nb h
  subst hb; subst hnb
  constructor
  · rw [hasKind_append, hasKind_append, hasKind_append, hasKind_append,
      hasKind_append,
      hasKind_false_of_uniform _ _ _ (type_change_list_kinds name o n) (by decide),
      hasKind_false_of_uniform _ _ _ (required_change_lists_kinds1 name o n) (by decide),
      hasKind_false_of_uniform _ _ _ (pattern_change_lists_kinds1 name o n) (by decide),
      hasKind_false_of_uniform _ _ _ hrb (by decide),
      hasKind_false_of_uniform _ _ _ (format_change_list_kinds name o n) (by decide)]
    simp only [Bool.false_or, Bool.or_false]
    rw [hasKind_enum_removed]
    simp [hd, enumProperSubset_iff_spec]
  · rw [hasKind_append, hasKind_append, hasKind_append,
      hasKind_false_of_uniform _ _ _ (required_change_lists_kinds2 name o n) (by decide),
      hasKind_false_of_uniform _ _ _ (pattern_change_lists_kinds2 name o n) (by decide),
      hasKind_false_of_uniform _ _ _ hrnb (by decide)]
    simp only [Bool.false_or, Bool.or_false]
    rw [hasKind_enum_added]
    simp [hd, enumProperSubset_iff_spec]

/-- Witness for C5: narrowing an enum from `{A,B,C}` to `{A,B}` records
breaking `ENUM_VALUES_REMOVED`. -/
theorem C5_enum_classification_witness :
    hasKind enum_case.1 "ENUM_VALUES_REMOVED" = true :=
  (C5_enum_classification "f" fd_enum_abc fd_enum_ab enum_case.1 enum_case.2
    (by rfl) (by decide)).1.mpr
    ⟨[.sStr "A", .sStr "B"], rfl,
      (enumProperSubset_iff_spec _ _).mp (by rfl)⟩

/-- C9: a malformed `quality_rules` block never fails the parse — for a
document whose other top-level values are acceptable and whose schema
block parses, `parse_yaml` succeeds with `quality_rules = None`;
whereas a schema block that fails structural validation makes the whole
parse fail with `InvalidSchemaError`. -/
theorem C9_quality_rules_best_effort (rc : String → Bool) (fuel : Nat)
    (d : List (String × PyVal)) (ys : PyVal) (cv : String)
    (fields : List (String × FieldDefinition)) (q : PyVal) (e : ParseErr)
    (hcv : pyLookup d "contract_version" = some (.vStr cv))
    (hcvok : version_ok cv = true)
    (hs : pyLookup d "schema" = some ys)
    (hfields : parse_schema rc fuel ys = .ok fields)
    (hdom : pyLookup d "domain" = none ∨
      ∃ s, pyLookup d "domain" = some (PyVal.vStr s))
    (hdesc : pyLookup d "description" = none ∨
      pyLookup d "description" = some PyVal.vNull ∨
      ∃ s, pyLookup d "description" = some (PyVal.vStr s))
    (hq : pyLookup d "quality_rules" = some q)
    (hqbad : validate_quality_rules q = .error e) :
    (∃ cs, parse_yaml rc fuel (.vDict d) = .ok cs ∧
      cs.quality_rules = none ∧ cs.schema = fields) ∧
    (∀ (d2 : List (String × PyVal)) (ys2 : PyVal),
      pyHasKey d2 "contract_version" = true →
      pyLookup d2 "schema" = some ys2 →
      parse_schema rc fuel ys2 = .error .invalidSchema →
      parse_yaml rc fuel (.vDict d2) = .error .invalidSchema) := by
  constructor
  · have hk1 : pyHasKey d "contract_version" = true := by simp [pyHasKey, hcv]
    have hk2 : pyHasKey d "schema" = true := by simp [pyHasKey, hs]
    unfold parse_yaml
    dsimp only
    rw [hk1, hk2, hs]
    simp only [Bool.not_true, Bool.false_eq_true, if_false, Option.getD_some]
    rw [hfields]
    simp only [bind, Except.bind, pure]
    rw [hq]
    dsimp only
    rw [hqbad, hcv]
    simp only [hcvok, if_true]
    rcases hdom with hdom | ⟨ds, hdom⟩ <;> rw [hdom] <;>
      rcases hdesc with hdesc | hdesc | ⟨des, hdesc⟩ <;> rw [hdesc] <;>
      exact ⟨_, rfl, rfl, rfl⟩
  · intro d2 ys2 hk hys2 hbad
    have hk2 : pyHasKey d2 "schema" = true := by simp [pyHasKey, hys2]
    unfold parse_yaml
    dsimp only
    rw [hk, hk2, hys2]
    simp only [Bool.not_true, Bool.false_eq_true, if_false, Option.getD_some]
    rw [hbad]

/-- Witness for C9 at a concrete document with an integer
`quality_rules` block. -/
theorem C9_quality_rules_best_effort_witness :
    parsed_quality (parse_yaml rc_true 10 doc_bad_quality) = none := by
  obtain ⟨cs, hok, hqn, _⟩ :=
    (C9_quality_rules_best_effort rc_true 10
      [("contract_version", .vStr "1.0"),
       ("schema", .vDict [("a", .vDict [("type", .vStr "string")])]),
       ("quality_rules", .vInt 5)]
      (.vDict [("a", .vDict [("type", .vStr "string")])]) "1.0"
      [("a", fd_plain)] (.vInt 5) .invalidSchema
      (by rfl) (by rfl) (by rfl) (by rfl) (Or.inl (by rfl)) (Or.inl (by rfl))
      (by rfl) (by rfl)).1
  simp [parsed_quality, doc_bad_quality, hok, hqn]

theorem pyLookup_nil (k : String) : pyLookup [] k = none := rfl

theorem pyLookup_cons_self (k : String) (v : PyVal) (rest : List (String × PyVal)) :
    pyLookup ((k, v) :: rest) k = some v := by
  simp [pyLookup]

theorem pyLookup_cons_ne (k k' : String) (v : PyVal)
    (rest : List (String × PyVal)) (h : k' ≠ k) :
    pyLookup ((k', v) :: rest) k = pyLookup rest k := by
  simp [pyLookup, h]

theorem pyLookup_opt_skip (k k' : String) (o : Option PyVal)
    (rest : List (String × PyVal)) (h : k' ≠ k) :
    pyLookup (opt_entry k' o ++ rest) k = pyLookup rest k := by
  cases o <;> simp [opt_entry, pyLookup, h]

theorem pyLookup_opt_entry_self (k : String) (o : Option PyVal)
    (rest : List (String × PyVal)) (h : pyLookup rest k = none) :
    pyLookup (opt_entry k o ++ rest) k = o := by
  cases o <;> simp [opt_entry, pyLookup, h]

/-- C8 counterexample: the contract whose single field is an object
with an empty `properties` mapping is produced by the parser from a
well-formed document, but the serializer drops the falsy empty mapping
and re-parsing its output fails with `InvalidSchemaError` — the
round-trip does not even succeed, let alone preserve the schema. -/
theorem C8_counterexample :
    parse_yaml rc_true 10 doc_empty_props = .ok cs_empty_props ∧
    parse_yaml rc_true 10 (serialize_to_yaml cs_empty_props) =
      .error .invalidSchema :=
  ⟨by rfl, by rfl⟩

theorem pyLookup_opt_bare_ne (k k' : String) (o : Option PyVal) (h : k' ≠ k) :
    pyLookup (opt_entry k' o) k = none := by
  cases o <;> simp [opt_entry, pyLookup, h]

theorem pyLookup_opt_bare_self (k : String) (o : Option PyVal) :
    pyLookup (opt_entry k o) k = o := by
  cases o <;> simp [opt_entry, pyLookup]

theorem valToScalar_scalarToVal (s : Scalar) :
    valToScalar (scalarToVal s) = some s := by
  cases s <;> rfl

theorem mapM_valToScalar_map (l : List Scalar) :
    (l.map scalarToVal).mapM valToScalar = some l := by
  induction l with
  | nil => rfl
  | cons s rest ih =>
    rw [List.map_cons, List.mapM_cons, valToScalar_scalarToVal, ih]
    rfl

theorem parse_type_field_roundtrip (d : List (String × PyVal)) (t : String)
    (hlk : pyLookup d "type" = some (.vStr t)) (ht : t ∈ allowed_types) :
    parse_type_field d = .ok t := by
  unfold parse_type_field
  rw [hlk]
  simp [ht]

theorem parse_pattern_field_roundtrip (rc : String → Bool)
    (d : List (String × PyVal)) (pat : Option String)
    (hlk : pyLookup d "pattern" = truthy_str pat)
    (hwf : wf_pattern rc pat = true) :
    parse_pattern_field rc d = .ok pat := by
  unfold parse_pattern_field
  rw [hlk]
  cases pat with
  | none => rfl
  | some p =>
    simp only [wf_pattern, Bool.and_eq_true, decide_eq_true_eq] at hwf
    simp [truthy_str, hwf.1, hwf.2]

theorem parse_format_field_roundtrip (d : List (String × PyVal))
    (fmt : Option String)
    (hlk : pyLookup d "format" = truthy_str fmt)
    (hwf : wf_format fmt = true) :
    parse_format_field d = .ok fmt := by
  unfold parse_format_field
  rw [hlk]
  cases fmt with
  | none => rfl
  | some f =>
    simp only [wf_format, decide_eq_true_eq] at hwf
    have hne : f ≠ "" := by
      intro hcon
      subst hcon
      exact absurd hwf (by decide)
    simp [truthy_str, hne, hwf]

theorem scalar_field_roundtrip (d : List (String × PyVal)) (key : String)
    (mn : Option Scalar) (hlk : pyLookup d key = mn.map scalarToVal) :
    scalar_field d key = .ok mn := by
  unfold scalar_field
  rw [hlk]
  cases mn with
  | none => rfl
  | some s => cases s <;> rfl

theorem int_field_roundtrip (d : List (String × PyVal)) (key : String)
    (ml : Option Int) (hlk : pyLookup d key = ml.map PyVal.vInt) :
    int_field d key = .ok ml := by
  unfold int_field
  rw [hlk]
  cases ml <;> rfl

theorem check_min_max_roundtrip (mn mx : Option Scalar)
    (hwf : wf_minmax mn mx = true) :
    check_min_max mn mx = .ok () := by
  unfold check_min_max
  cases mn with
  | none => rfl
  | some a =>
    cases mx with
    | none => rfl
    | some b =>
      simp only [wf_minmax, decide_eq_true_eq] at hwf
      dsimp only
      rw [hwf]

theorem check_lengths_roundtrip (ml xl : Option Int)
    (hwf : wf_lengths ml xl = true) :
    check_lengths ml xl = .ok () := by
  unfold check_lengths
  cases ml with
  | none => rfl
  | some a =>
    cases xl with
    | none => rfl
    | some b =>
      simp only [wf_lengths, decide_eq_true_eq] at hwf
      dsimp only
      rw [if_neg (by omega)]

theorem parse_required_field_roundtrip (d : List (String × PyVal)) (r : Bool)
    (hlk : pyLookup d "required" = some (.vBool r)) :
    parse_required_field d = .ok r := by
  unfold parse_required_field
  rw [hlk]

theorem parse_description_field_roundtrip (d : List (String × PyVal))
    (dsc : Option String) (hlk : pyLookup d "description" = truthy_str dsc) :
    ∃ d2, parse_description_field d = .ok d2 := by
  unfold parse_description_field
  rw [hlk]
  cases dsc with
  | none => exact ⟨Option.none, rfl⟩
  | some s =>
    by_cases hs : s = ""
    · exact ⟨Option.none, by simp [truthy_str, hs]⟩
    · exact ⟨some s, by simp [truthy_str, hs]⟩

theorem parse_enum_field_roundtrip (d : List (String × PyVal))
    (en : Option (List Scalar))
    (hlk : pyLookup d "enum" = ser_enum_val en)
    (hwf : wf_enum en = true) :
    parse_enum_field d = .ok en := by
  unfold parse_enum_field
  cases en with
  | none =>
    simp only [ser_enum_val] at hlk
    rw [hlk]
  | some l =>
    simp only [ser_enum_val] at hlk
    simp only [wf_enum] at hwf
    simp only [hwf, if_true] at hlk
    rw [hlk]
    dsimp only
    rw [mapM_valToScalar_map]

/-- All key lookups into the serialized form of a field definition. -/
theorem serialized_lookups (t : String) (req : Bool) (pat fmt : Option String)
    (mn mx : Option Scalar) (mnl mxl : Option Int) (dsc : Option String)
    (en : Option (List Scalar)) (items : FItems) (props : FProps) :
    ∃ d, field_definition_to_dict
        (.mk ⟨t, req, pat, fmt, mn, mx, mnl, mxl, dsc, en⟩ items props) =
      .vDict d ∧
      pyLookup d "type" = some (.vStr t) ∧
      pyLookup d "required" = some (.vBool req) ∧
      pyLookup d "pattern" = truthy_str pat ∧
      pyLookup d "format" = truthy_str fmt ∧
      pyLookup d "min" = mn.map scalarToVal ∧
      pyLookup d "max" = mx.map scalarToVal ∧
      pyLookup d "min_length" = mnl.map PyVal.vInt ∧
      pyLookup d "max_length" = mxl.map PyVal.vInt ∧
      pyLookup d "description" = truthy_str dsc ∧
      pyLookup d "enum" = ser_enum_val en ∧
      pyLookup d "items" = (match items with
        | .some ifd => some (field_definition_to_dict ifd)
        | .none => none) ∧
      pyLookup d "properties" = (match props with
        | .some pl => if pl.isNil then none else some (.vDict (props_to_dict pl))
        | .none => none) := by
  cases items <;> cases props <;>
    refine ⟨_, rfl, ?_, ?_, ?_, ?_, ?_, ?_, ?_, ?_, ?_, ?_, ?_, ?_⟩ <;>
    · simp only [List.append_assoc, List.cons_append, List.nil_append]
      simp only [ne_eq, pyLookup_cons_self, pyLookup_cons_ne, pyLookup_opt_skip,
        pyLookup_opt_bare_ne, pyLookup_opt_bare_self, pyLookup_opt_entry_self,
        pyLookup_nil, String.reduceEq, not_false_eq_true]

mutual

/-- Round trip of a single well-formed field definition through
serialization and re-parsing, by structural induction. -/
theorem roundtrip_fd (rc : String → Bool) :
    (fd : FieldDefinition) → wf_fd rc fd = true →
    (n : Nat) → field_cost fd ≤ n →
    ∃ fd2, parse_req rc n (.field (field_definition_to_dict fd)) =
        .ok (.field fd2) ∧ equiv_fd fd fd2 = true
  | .mk attrs items props, hwf, n, hn => by
    obtain ⟨t, req, pat, fmt, mn, mx, mnl, mxl, dsc, en⟩ := attrs
    simp only [wf_fd, Bool.and_eq_true] at hwf
    obtain ⟨⟨⟨⟨⟨⟨⟨⟨⟨h1, h2⟩, h3⟩, h4⟩, h5⟩, h6⟩, h7⟩, h8⟩, h9⟩, h10⟩ := hwf
    simp only [field_cost] at hn
    obtain ⟨m, rfl⟩ : ∃ m, n = m + 1 := ⟨n - 1, by omega⟩
    have hle1 : items_cost items ≤ Nat.max (items_cost items) (props_cost props) :=
      Nat.le_max_left _ _
    have hle2 : props_cost props ≤ Nat.max (items_cost items) (props_cost props) :=
      Nat.le_max_right _ _
    have hmI : items_cost items ≤ m := by omega
    have hmP : props_cost props ≤ m := by omega
    have hit := roundtrip_items rc items h9 m hmI
    have hpr := roundtrip_props rc props h10 m hmP
    obtain ⟨d, hser, lkT, lkR, lkP, lkF, lkMn, lkMx, lkMl, lkXl, lkD, lkE,
      lkI, lkPr⟩ := serialized_lookups t req pat fmt mn mx mnl mxl dsc en items props
    rw [hser]
    simp only [parse_req]
    obtain ⟨dsc2, hdsc2⟩ := parse_description_field_roundtrip d dsc lkD
    rw [parse_type_field_roundtrip d t lkT (of_decide_eq_true h1),
      parse_pattern_field_roundtrip rc d pat lkP h3,
      parse_format_field_roundtrip d fmt lkF h2,
      scalar_field_roundtrip d "min" mn lkMn,
      scalar_field_roundtrip d "max" mx lkMx,
      int_field_roundtrip d "min_length" mnl lkMl,
      int_field_roundtrip d "max_length" mxl lkXl,
      parse_required_field_roundtrip d req lkR,
      parse_enum_field_roundtrip d en lkE h6,
      hdsc2, lkI, lkPr]
    simp only [bind, Except.bind]
    rw [check_min_max_roundtrip mn mx h4]
    simp only [bind, Except.bind]
    rw [check_lengths_roundtrip mnl mxl h5]
    simp only [bind, Except.bind]
    cases items with
    | none =>
      have harr : ¬t = "array" := by
        intro hcon
        rw [if_pos hcon] at h7
        simp at h7
      rw [if_neg harr]
      cases props with
      | none =>
        have hobj : ¬t = "object" := by
          intro hcon
          rw [if_pos hcon] at h8
          simp at h8
        rw [if_neg hobj]
        exact ⟨_, rfl, by
          simp [equiv_fd, equiv_items, equiv_props]⟩
      | some pl =>
        have hobj : t = "object" := by
          by_cases hcon : t = "object"
          · exact hcon
          · rw [if_neg hcon] at h8
            simp at h8
        rw [if_pos hobj]
        have hnil : pl.isNil = false := by
          rw [if_pos hobj] at h8
          simp only [Bool.not_eq_true'] at h8
          exact h8
        dsimp only
        rw [if_neg (show ¬pl.isNil = true by simp [hnil])]
        dsimp only
        obtain ⟨pl2, hpl2, heqP⟩ := hpr pl rfl
        rw [hpl2]
        exact ⟨_, rfl, by
          simp [equiv_fd, equiv_items, equiv_props, heqP]⟩
    | some ifd =>
      have harr : t = "array" := by
        by_cases hcon : t = "array"
        · exact hcon
        · rw [if_neg hcon] at h7
          simp at h7
      rw [if_pos harr]
      dsimp only
      obtain ⟨fd2, hfd2, heqI⟩ := hit ifd rfl
      rw [hfd2]
      simp only [bind, Except.bind]
      have hobj : ¬t = "object" := by
        intro hcon
        rw [hcon] at harr
        exact absurd harr (by decide)
      cases props with
      | none =>
        rw [if_neg hobj]
        exact ⟨_, rfl, by
          simp [equiv_fd, equiv_items, equiv_props, heqI]⟩
      | some pl =>
        exfalso
        rw [if_neg hobj] at h8
        simp at h8

/-- Round trip of the `items` component. -/
theorem roundtrip_items (rc : String → Bool) :
    (it : FItems) → wf_items rc it = true →
    (m : Nat) → items_cost it ≤ m →
    ∀ ifd, it = FItems.some ifd →
    ∃ fd2, parse_req rc m (.field (field_definition_to_dict ifd)) =
        .ok (.field fd2) ∧ equiv_fd ifd fd2 = true
  | .none, _, _, _, _, h => by exact FItems.noConfusion h
  | .some fd0, hwf, m, hm, ifd, h => by
    injection h with h2
    subst h2
    exact roundtrip_fd rc fd0 hwf m hm

/-- Round trip of the `properties` component. -/
theorem roundtrip_props (rc : String → Bool) :
    (pr : FProps) → wf_props rc pr = true →
    (m : Nat) → props_cost pr ≤ m →
    ∀ pl, pr = FProps.some pl →
    ∃ pl2, parse_req rc m (.props (props_to_dict pl)) =
        .ok (.props pl2) ∧ equiv_plist pl pl2 = true
  | .none, _, _, _, _, h => by exact FProps.noConfusion h
  | .some pl0, hwf, m, hm, pl, h => by
    injection h with h2
    subst h2
    exact roundtrip_plist rc pl0 hwf m hm

/-- Round trip of a properties list. -/
theorem roundtrip_plist (rc : String → Bool) :
    (pl : FPropList) → wf_plist rc pl = true →
    (m : Nat) → plist_cost pl ≤ m →
    ∃ pl2, parse_req rc m (.props (props_to_dict pl)) =
        .ok (.props pl2) ∧ equiv_plist pl pl2 = true
  | .nil, _, m, hm => by
    obtain ⟨m2, rfl⟩ : ∃ m2, m = m2 + 1 :=
      ⟨m - 1, by simp only [plist_cost] at hm; omega⟩
    exact ⟨.nil, rfl, by simp [equiv_plist]⟩
  | .cons k fd rest, hwf, m, hm => by
    simp only [wf_plist, Bool.and_eq_true] at hwf
    obtain ⟨h1, h2⟩ := hwf
    simp only [plist_cost] at hm
    obtain ⟨m2, rfl⟩ : ∃ m2, m = m2 + 1 := ⟨m - 1, by omega⟩
    have hle1 : field_cost fd ≤ Nat.max (field_cost fd) (plist_cost rest) :=
      Nat.le_max_left _ _
    have hle2 : plist_cost rest ≤ Nat.max (field_cost fd) (plist_cost rest) :=
      Nat.le_max_right _ _
    have hmf : field_cost fd ≤ m2 := by omega
    have hmr : plist_cost rest ≤ m2 := by omega
    obtain ⟨fd2, hfd2, heqfd⟩ := roundtrip_fd rc fd h1 m2 hmf
    obtain ⟨pl2, hpl2, heqpl⟩ := roundtrip_plist rc rest h2 m2 hmr
    refine ⟨.cons k fd2 pl2, ?_, ?_⟩
    · have hexp : props_to_dict (.cons k fd rest) =
          (k, field_definition_to_dict fd) :: props_to_dict rest := rfl
      rw [hexp]
      simp only [parse_req]
      rw [hfd2, hpl2]
      rfl
    · simp [equiv_plist, heqfd, heqpl]

end

/-- Round trip of a whole schema mapping through serialization and
re-parsing, field by field. -/
theorem roundtrip_schema (rc : String → Bool) :
    (fs : List (String × FieldDefinition)) → wf_schema_fields rc fs = true →
    (n : Nat) → schema_cost fs ≤ n →
    ∃ fs2, parse_schema_entries rc n
        (fs.map (fun p => (p.1, field_definition_to_dict p.2))) = .ok fs2 ∧
      equiv_fields fs fs2 = true
  | [], _, n, _ => ⟨[], rfl, rfl⟩
  | (k, fd) :: rest, hwf, n, hn => by
    simp only [wf_schema_fields, Bool.and_eq_true] at hwf
    obtain ⟨h1, h2⟩ := hwf
    simp only [schema_cost] at hn
    have hle1 : field_cost fd ≤ Nat.max (field_cost fd) (schema_cost rest) :=
      Nat.le_max_left _ _
    have hle2 : schema_cost rest ≤ Nat.max (field_cost fd) (schema_cost rest) :=
      Nat.le_max_right _ _
    have hmf : field_cost fd ≤ n := by omega
    have hmr : schema_cost rest ≤ n := by omega
    obtain ⟨fd2, hfd2, heq⟩ := roundtrip_fd rc fd h1 n hmf
    obtain ⟨fs2, hfs2, heqs⟩ := roundtrip_schema rc rest h2 n hmr
    obtain ⟨d, hd⟩ : ∃ d, field_definition_to_dict fd = .vDict d := by
      obtain ⟨attrs, items, props⟩ := fd
      cases items <;> cases props <;> exact ⟨_, rfl⟩
    rw [hd] at hfd2
    refine ⟨(k, fd2) :: fs2, ?_, ?_⟩
    · rw [List.map_cons]
      dsimp only
      rw [hd]
      simp only [parse_schema_entries, validate_field_definition]
      rw [hfd2]
      dsimp only
      simp only [bind, Except.bind]
      rw [hfs2]
    · simp [equiv_fields, heq, heqs]

/-- The serialized form of an optional string attribute is either
absent or a non-null string value. -/
theorem truthy_str_shape (o : Option String) :
    truthy_str o = none ∨ ∃ s, truthy_str o = some (.vStr s) := by
  cases o with
  | none => exact Or.inl rfl
  | some s =>
    by_cases hs : s = ""
    · exact Or.inl (by simp [truthy_str, hs])
    · exact Or.inr ⟨s, by simp [truthy_str, hs]⟩

/-- Lookups into the top-level serialized contract dictionary. -/
theorem top_lk_cv (cv dom : String) (dv : Option PyVal) (sv : PyVal)
    (q : Option PyVal) :
    pyLookup (("contract_version", PyVal.vStr cv) :: ("domain", PyVal.vStr dom) ::
      (opt_entry "description" dv ++
        (("schema", sv) :: opt_entry "quality_rules" q))) "contract_version" =
      some (PyVal.vStr cv) := by
  simp only [pyLookup_cons_self]

theorem top_lk_dom (cv dom : String) (dv : Option PyVal) (sv : PyVal)
    (q : Option PyVal) :
    pyLookup (("contract_version", PyVal.vStr cv) :: ("domain", PyVal.vStr dom) ::
      (opt_entry "description" dv ++
        (("schema", sv) :: opt_entry "quality_rules" q))) "domain" =
      some (PyVal.vStr dom) := by
  simp only [ne_eq, pyLookup_cons_self, pyLookup_cons_ne, String.reduceEq,
    not_false_eq_true]

theorem top_lk_schema (cv dom : String) (dv : Option PyVal) (sv : PyVal)
    (q : Option PyVal) :
    pyLookup (("contract_version", PyVal.vStr cv) :: ("domain", PyVal.vStr dom) ::
      (opt_entry "description" dv ++
        (("schema", sv) :: opt_entry "quality_rules" q))) "schema" = some sv := by
  simp only [ne_eq, pyLookup_cons_self, pyLookup_cons_ne, pyLookup_opt_skip,
    String.reduceEq, not_false_eq_true]

theorem top_lk_desc (cv dom : String) (dv : Option PyVal) (sv : PyVal)
    (q : Option PyVal) :
    pyLookup (("contract_version", PyVal.vStr cv) :: ("domain", PyVal.vStr dom) ::
      (opt_entry "description" dv ++
        (("schema", sv) :: opt_entry "quality_rules" q))) "description" = dv := by
  simp only [ne_eq, pyLookup_cons_ne, String.reduceEq, not_false_eq_true]
  rw [pyLookup_opt_entry_self]
  simp only [ne_eq, pyLookup_cons_ne, String.reduceEq, not_false_eq_true,
    pyLookup_opt_bare_ne]

/-- C8 (amended): serializing a well-formed contract — one whose
version string matches the validator, whose schema mapping is
non-empty, and whose every field definition is well-formed (valid type
and format, compiling non-empty pattern when present, ordered
`min`/`max` and `min_length`/`max_length`, non-empty enum when
present, `items` exactly on array fields and a non-empty `properties`
mapping exactly on object fields) — and re-parsing the output with
enough fuel succeeds and yields a contract with the same version,
domain, field names, types, required flags and constraint attributes.
(Without the well-formedness restriction the round-trip can fail
outright: an empty `properties` mapping is falsy and is dropped by the
serializer, and an empty-string pattern or an empty enum list is
silently dropped rather than preserved.) -/
theorem C8_roundtrip_amended (rc : String → Bool) (cs : ContractSchema)
    (hwf : wf_contract rc cs = true) (fuel : Nat)
    (hfuel : schema_cost cs.schema ≤ fuel) :
    ∃ cs2, parse_yaml rc fuel (serialize_to_yaml cs) = .ok cs2 ∧
      cs2.contract_version = cs.contract_version ∧
      cs2.domain = cs.domain ∧
      equiv_fields cs.schema cs2.schema = true := by
  obtain ⟨cv, dom, desc, fields, qr⟩ := cs
  simp only [wf_contract, Bool.and_eq_true] at hwf
  obtain ⟨⟨hv, hne⟩, hwfs⟩ := hwf
  dsimp only at hfuel
  obtain ⟨fs2, hfs2, heqs⟩ := roundtrip_schema rc fields hwfs fuel hfuel
  simp only [serialize_to_yaml]
  simp only [List.append_assoc, List.cons_append, List.nil_append]
  simp only [parse_yaml]
  rw [if_neg (by rw [pyHasKey, top_lk_cv]; simp)]
  rw [if_neg (by rw [pyHasKey, top_lk_schema]; simp)]
  rw [top_lk_schema]
  simp only [Option.getD_some, parse_schema]
  have hmapne :
      (List.map (fun p => (p.1, field_definition_to_dict p.2)) fields).isEmpty
        = false := by
    cases fields with
    | nil => simp at hne
    | cons a l => rfl
  rw [if_neg (by simp [hmapne])]
  rw [hfs2]
  dsimp only
  rw [top_lk_cv]
  dsimp only
  rw [if_pos hv]
  simp only [bind, Except.bind]
  rw [top_lk_dom]
  dsimp only
  rcases truthy_str_shape desc with htd | ⟨s, htd⟩ <;> rw [top_lk_desc, htd]
  · exact ⟨_, rfl, rfl, rfl, heqs⟩
  · exact ⟨_, rfl, rfl, rfl, heqs⟩

/-- Witness: the amended C8 round-trip theorem applied to a concrete
well-formed contract exercising string constraints, a nested array
and an object field. -/
theorem C8_roundtrip_amended_witness :
    wf_contract rc_true cs_round = true ∧
    schema_cost cs_round.schema ≤ 10 ∧
    ∃ cs2, parse_yaml rc_true 10 (serialize_to_yaml cs_round) = .ok cs2 ∧
      cs2.contract_version = cs_round.contract_version ∧
      cs2.domain = cs_round.domain ∧
      equiv_fields cs_round.schema cs2.schema = true :=
  ⟨by decide, by decide,
   C8_roundtrip_amended rc_true cs_round (by decide) 10 (by decide)⟩
